import Mathlib

/-!
Shallow embedding of the `probe-rs` debug variable core
(`src/probe-rs/src/debug/variable.rs`): the `Variable` data model, the
`VariableCache` operations, and the scalar value codec.  The cache's
`HashMap<i64, Variable>` is embedded as an association list whose list order
plays the role of the hash map's (unspecified) iteration order; inserting a
fresh key appends, updating an existing key rewrites the entry in place, and
removal drops the entry, all of which preserve the remaining order.  Target
memory is a byte-addressed total function.  Host floating-point parsing and
formatting as well as the composite `&str` decoder are abstracted as
parameters (`ExternOracles`); nothing proved below depends on them.
-/

namespace ProbeRs

/-- Role a variable plays in a DWARF variant relationship
(`enum VariantRole`). -/
inductive VariantRole where
  | VariantPart (d : Nat)
  | Variant (d : Nat)
  | NonVariant
  deriving DecidableEq

/-- Value state of a variable (`enum VariableValue`): a valid value, an error
message, or not-yet-set. -/
inductive VariableValue where
  | Valid (s : String)
  | Error (s : String)
  | Empty
  deriving DecidableEq

/-- Embeds `impl Display for VariableValue`. -/
def VariableValue.displayStr : VariableValue → String
  | .Valid value => value
  | .Error e => "< " ++ e ++ " >"
  | .Empty =>
      "Value not set. Please use Variable::get_value() to infer a human readable variable value"

/-- Embeds `VariableValue::is_valid`: everything except `Error(_)` is valid. -/
def VariableValue.is_valid : VariableValue → Bool
  | .Error _ => false
  | _ => true

/-- Embeds `VariableValue::is_empty`. -/
def VariableValue.is_empty : VariableValue → Bool
  | .Empty => true
  | _ => false

/-- Name of a variable (`enum VariableName`); the `Artifical` spelling follows
the source. -/
inductive VariableName where
  | StaticScopeRoot
  | RegistersRoot
  | LocalScopeRoot
  | Artifical
  | AnonymousNamespace
  | Namespace (s : String)
  | Named (s : String)
  | Unknown
  deriving DecidableEq

/-- Embeds `impl Display for VariableName`. -/
def VariableName.displayStr : VariableName → String
  | .StaticScopeRoot => "Static Variable"
  | .RegistersRoot => "Platform Register"
  | .LocalScopeRoot => "Function Variable"
  | .Artifical => "<artifical>"
  | .AnonymousNamespace => "<anonymous_namespace>"
  | .Namespace name => name
  | .Named name => name
  | .Unknown => "<unknown>"

/-- Embeds `enum VariableNodeType`; DWARF offsets are opaque handles, embedded as
naturals. -/
inductive VariableNodeType where
  | ReferenceOffset (o : Nat)
  | TypeOffset (o : Nat)
  | DirectLookup
  | DoNotRecurse
  | RecurseToBaseType
  deriving DecidableEq

/-- Embeds `VariableNodeType::is_deferred`. -/
def VariableNodeType.is_deferred : VariableNodeType → Bool
  | .ReferenceOffset _ => true
  | .TypeOffset _ => true
  | .DirectLookup => true
  | _ => false

/-- Embeds `enum VariableType`. -/
inductive VariableType where
  | Base (s : String)
  | Struct (s : String)
  | Enum (s : String)
  | Namespace
  | Pointer (s : Option String)
  | Array (entry_type : VariableName) (count : Nat)
  | Unnamed
  | Unknown
  | Other (s : String)
  deriving DecidableEq

/-- Embeds `VariableType::display`. -/
def VariableType.displayStr : VariableType → String
  | .Base base => base
  | .Struct struct_name => struct_name
  | .Enum enum_name => enum_name
  | .Namespace => "<namespace>"
  | .Pointer pointer_name => pointer_name.getD "<unnamed>"
  | .Array entry_type count =>
      "[" ++ entry_type.displayStr ++ "; " ++ toString count ++ "]"
  | .Unnamed => "<unnamed>"
  | .Unknown => "<unknown>"
  | .Other other => other

/-- Embeds `enum VariableLocation`; the `Address` payload is a `u32` target address,
embedded as a natural. -/
inductive VariableLocation where
  | Unknown
  | Unavailable
  | Address (a : Nat)
  | Register (i : Nat)
  | Value
  | Error (s : String)
  | Unsupported (s : String)
  deriving DecidableEq

/-- Here `{:?}` rendering of a `VariableLocation` (Rust derive(Debug)). -/
def VariableLocation.debugStr : VariableLocation → String
  | .Unknown => "Unknown"
  | .Unavailable => "Unavailable"
  | .Address a => "Address(" ++ toString a ++ ")"
  | .Register i => "Register(" ++ toString i ++ ")"
  | .Value => "Value"
  | .Error s => "Error(\"" ++ s ++ "\")"
  | .Unsupported s => "Unsupported(\"" ++ s ++ "\")"

/-- Embeds `VariableLocation::memory_address`: the address for `Address(_)`, an error
otherwise. -/
def VariableLocation.memory_address : VariableLocation → Except String Nat
  | .Address address => .ok address
  | other =>
      .error ("Variable does not have a memory location: location=" ++ other.debugStr)

/-- Embeds `VariableLocation::valid`. -/
def VariableLocation.valid : VariableLocation → Bool
  | .Address _ => true
  | .Register _ => true
  | .Value => true
  | .Unknown => true
  | _ => false

/-- Source location attached to a variable.  Modelled from the spec: the
`SourceLocation` type lives outside `src/`; §3.1 describes it as an optional
(file, line, column) triple. -/
structure SourceLocation where
  file : String
  line : Option Nat
  column : Option Nat
  deriving DecidableEq

/-- Embeds `struct Variable`: one cached program variable.  DWARF back-references
(`unit_header_offset`, `variable_unit_offset`) are opaque handles the core
stores but never dereferences.  The `i64` key space is embedded as `Int`. -/
structure Variable where
  variable_key : Int := 0
  parent_key : Option Int := none
  name : VariableName := .Unknown
  value : VariableValue := .Empty
  source_location : Option SourceLocation := none
  type_name : VariableType := .Unknown
  unit_header_offset : Option Nat := none
  variable_unit_offset : Option Nat := none
  variable_node_type : VariableNodeType := .RecurseToBaseType
  memory_location : VariableLocation := .Unknown
  byte_size : Nat := 0
  member_index : Option Int := none
  range_lower_bound : Int := 0
  range_upper_bound : Int := 0
  role : VariantRole := .NonVariant
  deriving DecidableEq

/-- The cache's `HashMap<i64, Variable>`, embedded as an association list;
the list order stands for the hash map's unspecified iteration order. -/
abbrev Cache : Type := List (Int × Variable)

/-- Embeds `Variable::set_value`: a valid new value always replaces; an error
replaces a valid value; an error over a non-valid value concatenates the two
displayed messages. -/
def Variable.set_value (self : Variable) (new_value : VariableValue) : Variable :=
  if new_value.is_valid then
    { self with value := new_value }
  else if self.value.is_valid then
    { self with value := new_value }
  else
    { self with value :=
        VariableValue.Error (self.value.displayStr ++ " : " ++ new_value.displayStr) }

/-- Embeds `Variable::is_valid`. -/
def Variable.is_valid (self : Variable) : Bool :=
  self.value.is_valid

/-! ## Target memory (external interface A)

`Core` reads and writes are byte-granular and little-endian; the embedding
uses a total byte map.  Transport failures are outside the model: every
in-model read and write succeeds, which is the regime the codec round-trip
statements quantify over. -/

/-- Target memory: one byte per address. -/
def Mem : Type := Nat → Nat

/-- Write a single byte. -/
def writeByte (m : Mem) (a : Nat) (b : Nat) : Mem :=
  fun x => if x = a then b % 256 else m x

/-- Read a single byte. -/
def readByte (m : Mem) (a : Nat) : Nat :=
  m a % 256

/-- Write a byte list at consecutive addresses (`Core::write_8`). -/
def writeBytes (m : Mem) (a : Nat) : List Nat → Mem
  | [] => m
  | b :: bs => writeBytes (writeByte m a b) (a + 1) bs

/-- Read `n` consecutive bytes (`Core::read`). -/
def readBytes (m : Mem) (a : Nat) : Nat → List Nat
  | 0 => []
  | n + 1 => readByte m a :: readBytes m (a + 1) n

/-- Little-endian byte image of a natural, `w` bytes wide
(`T::to_le_bytes`). -/
def leBytes : Nat → Nat → List Nat
  | 0, _ => []
  | w + 1, v => v % 256 :: leBytes w (v / 256)

/-- Natural encoded by a little-endian byte list (`T::from_le_bytes`). -/
def fromLeBytes : List Nat → Nat
  | [] => 0
  | b :: bs => b % 256 + 256 * fromLeBytes bs

/-- Two's-complement image of a signed value in `w` bits
(`iN::to_le_bytes` seen as a natural). -/
def toTwos (w : Nat) (x : Int) : Nat :=
  (x % (2 ^ w : Nat)).toNat

/-- Signed value of a `w`-bit two's-complement image
(`iN::from_le_bytes`). -/
def fromTwos (w : Nat) (n : Nat) : Int :=
  if n < 2 ^ (w - 1) then (n : Int) else (n : Int) - (2 ^ w : Nat)

/-! ## Decimal text (Rust `Display` / `FromStr` for the integer scalars) -/

/-- Decimal digit character. -/
def digitChar (d : Nat) : Char :=
  Char.ofNat (48 + d)

/-- Decimal rendering of a natural (`u*::to_string`). -/
def natToText (n : Nat) : String :=
  if n = 0 then "0" else String.mk (((Nat.digits 10 n).map digitChar).reverse)

/-- Decimal rendering of a signed integer (`i*::to_string`). -/
def intToText (x : Int) : String :=
  if x < 0 then "-" ++ natToText x.natAbs else natToText x.toNat

/-- Digit value of a character, if it is `0`-`9`. -/
def charDigit (c : Char) : Option Nat :=
  if 48 ≤ c.toNat ∧ c.toNat ≤ 57 then some (c.toNat - 48) else none

/-- All-digit reading of a character list. -/
def digitsOfChars : List Char → Option (List Nat)
  | [] => some []
  | c :: cs =>
      match charDigit c, digitsOfChars cs with
      | some d, some ds => some (d :: ds)
      | _, _ => none

/-- Natural denoted by a non-empty digit string (most significant first). -/
def natFromChars (cs : List Char) : Option Nat :=
  if cs = [] then none
  else (digitsOfChars cs).map (List.foldl (fun a d => a * 10 + d) 0)

/-- Here `u*::from_str` before the range check: optional `+`, then digits. -/
def natFromStr (s : String) : Option Nat :=
  match s.data with
  | [] => none
  | c :: cs => if c = '+' then natFromChars cs else natFromChars (c :: cs)

/-- Here `i*::from_str` before the range check: optional sign, then digits. -/
def intFromStr (s : String) : Option Int :=
  match s.data with
  | [] => none
  | c :: cs =>
      if c = '-' then (natFromChars cs).map (fun n => -(n : Int))
      else if c = '+' then (natFromChars cs).map (fun n => (n : Int))
      else (natFromChars (c :: cs)).map (fun n => (n : Int))

/-- Range-checked unsigned parse: `uN::from_str` for an `N`-bit type. -/
def unsignedFromStr (w : Nat) (s : String) : Option Nat :=
  (natFromStr s).bind (fun n => if n < 2 ^ w then some n else none)

/-- Range-checked signed parse: `iN::from_str` for an `N`-bit type. -/
def signedFromStr (w : Nat) (s : String) : Option Int :=
  (intFromStr s).bind
    (fun x => if -(2 ^ (w - 1) : Nat) ≤ x ∧ x < (2 ^ (w - 1) : Nat) then some x else none)

/-- Embeds `bool::from_str`: exactly `true` or `false`. -/
def boolFromStr (s : String) : Option Bool :=
  if s = "true" then some true else if s = "false" then some false else none

/-- Embeds `char::from_str`: exactly one character. -/
def charFromStr (s : String) : Option Char :=
  match s.data with
  | [c] => some c
  | _ => none

/-- Rust parse error surfaced by every `update_value` impl. -/
def convErr (s : String) : String :=
  "Invalid data conversion from value: \"" ++ s ++ "\""

/-! ## Scalar codec (component B): `impl Value for T` per base type.

`get_value` decodes the variable's memory location; `update_value` parses the
textual form and writes it back.  `isize`/`usize` follow the source exactly:
the read side assumes a 32-bit target word, while the write side emits
`to_le_bytes` of the debugger host's (64-bit) value. -/

/-- Embeds `impl Value for bool::get_value`: any nonzero byte is true. -/
def bool_get_value (v : Variable) (m : Mem) : Except String Bool := do
  let a ← v.memory_location.memory_address
  pure (readByte m a ≠ 0)

/-- Embeds `impl Value for bool::update_value`. -/
def bool_update_value (v : Variable) (m : Mem) (s : String) : Except String Mem := do
  let a ← v.memory_location.memory_address
  match boolFromStr s with
  | some b => pure (writeByte m a (if b then 1 else 0))
  | none => .error (convErr s)

/-- Here `char::from_u32` with the source's fallback to `?` for invalid code
points. -/
def charFromU32 (n : Nat) : Char :=
  if h : n.isValidChar then Char.ofNatAux n h else '?'

/-- Embeds `impl Value for char::get_value`. -/
def char_get_value (v : Variable) (m : Mem) : Except String Char := do
  let a ← v.memory_location.memory_address
  pure (charFromU32 (fromLeBytes (readBytes m a 4)))

/-- Embeds `impl Value for char::update_value`. -/
def char_update_value (v : Variable) (m : Mem) (s : String) : Except String Mem := do
  let a ← v.memory_location.memory_address
  match charFromStr s with
  | some c => pure (writeBytes m a (leBytes 4 c.toNat))
  | none => .error (convErr s)

/-- Embeds `impl Value for i8::get_value`. -/
def i8_get_value (v : Variable) (m : Mem) : Except String Int := do
  let a ← v.memory_location.memory_address
  pure (fromTwos 8 (fromLeBytes (readBytes m a 1)))

/-- Embeds `impl Value for i8::update_value` (`write_word_8` of the parsed value as
`u8`). -/
def i8_update_value (v : Variable) (m : Mem) (s : String) : Except String Mem := do
  let a ← v.memory_location.memory_address
  match signedFromStr 8 s with
  | some x => pure (writeByte m a (toTwos 8 x))
  | none => .error (convErr s)

/-- Embeds `impl Value for i16::get_value`. -/
def i16_get_value (v : Variable) (m : Mem) : Except String Int := do
  let a ← v.memory_location.memory_address
  pure (fromTwos 16 (fromLeBytes (readBytes m a 2)))

/-- Embeds `impl Value for i16::update_value`. -/
def i16_update_value (v : Variable) (m : Mem) (s : String) : Except String Mem :=
  match signedFromStr 16 s with
  | some x => do
      let a ← v.memory_location.memory_address
      pure (writeBytes m a (leBytes 2 (toTwos 16 x)))
  | none => .error (convErr s)

/-- Embeds `impl Value for i32::get_value`. -/
def i32_get_value (v : Variable) (m : Mem) : Except String Int := do
  let a ← v.memory_location.memory_address
  pure (fromTwos 32 (fromLeBytes (readBytes m a 4)))

/-- Embeds `impl Value for i32::update_value`. -/
def i32_update_value (v : Variable) (m : Mem) (s : String) : Except String Mem :=
  match signedFromStr 32 s with
  | some x => do
      let a ← v.memory_location.memory_address
      pure (writeBytes m a (leBytes 4 (toTwos 32 x)))
  | none => .error (convErr s)

/-- Embeds `impl Value for i64::get_value`. -/
def i64_get_value (v : Variable) (m : Mem) : Except String Int := do
  let a ← v.memory_location.memory_address
  pure (fromTwos 64 (fromLeBytes (readBytes m a 8)))

/-- Embeds `impl Value for i64::update_value`. -/
def i64_update_value (v : Variable) (m : Mem) (s : String) : Except String Mem :=
  match signedFromStr 64 s with
  | some x => do
      let a ← v.memory_location.memory_address
      pure (writeBytes m a (leBytes 8 (toTwos 64 x)))
  | none => .error (convErr s)

/-- Embeds `impl Value for i128::get_value`. -/
def i128_get_value (v : Variable) (m : Mem) : Except String Int := do
  let a ← v.memory_location.memory_address
  pure (fromTwos 128 (fromLeBytes (readBytes m a 16)))

/-- Embeds `impl Value for i128::update_value`. -/
def i128_update_value (v : Variable) (m : Mem) (s : String) : Except String Mem :=
  match signedFromStr 128 s with
  | some x => do
      let a ← v.memory_location.memory_address
      pure (writeBytes m a (leBytes 16 (toTwos 128 x)))
  | none => .error (convErr s)

/-- Embeds `impl Value for isize::get_value`: reads a 32-bit word (the source's
`TODO` notes the hard-coded target word size) and sign-extends. -/
def isize_get_value (v : Variable) (m : Mem) : Except String Int := do
  let a ← v.memory_location.memory_address
  pure (fromTwos 32 (fromLeBytes (readBytes m a 4)))

/-- Embeds `impl Value for isize::update_value`: `isize::to_le_bytes` on the (64-bit)
debugger host writes eight bytes. -/
def isize_update_value (v : Variable) (m : Mem) (s : String) : Except String Mem :=
  match signedFromStr 64 s with
  | some x => do
      let a ← v.memory_location.memory_address
      pure (writeBytes m a (leBytes 8 (toTwos 64 x)))
  | none => .error (convErr s)

/-- Embeds `impl Value for u8::get_value`. -/
def u8_get_value (v : Variable) (m : Mem) : Except String Nat := do
  let a ← v.memory_location.memory_address
  pure (fromLeBytes (readBytes m a 1))

/-- Embeds `impl Value for u8::update_value`. -/
def u8_update_value (v : Variable) (m : Mem) (s : String) : Except String Mem := do
  let a ← v.memory_location.memory_address
  match unsignedFromStr 8 s with
  | some x => pure (writeByte m a x)
  | none => .error (convErr s)

/-- Embeds `impl Value for u16::get_value`. -/
def u16_get_value (v : Variable) (m : Mem) : Except String Nat := do
  let a ← v.memory_location.memory_address
  pure (fromLeBytes (readBytes m a 2))

/-- Embeds `impl Value for u16::update_value`. -/
def u16_update_value (v : Variable) (m : Mem) (s : String) : Except String Mem :=
  match unsignedFromStr 16 s with
  | some x => do
      let a ← v.memory_location.memory_address
      pure (writeBytes m a (leBytes 2 x))
  | none => .error (convErr s)

/-- Embeds `impl Value for u32::get_value`. -/
def u32_get_value (v : Variable) (m : Mem) : Except String Nat := do
  let a ← v.memory_location.memory_address
  pure (fromLeBytes (readBytes m a 4))

/-- Embeds `impl Value for u32::update_value`. -/
def u32_update_value (v : Variable) (m : Mem) (s : String) : Except String Mem :=
  match unsignedFromStr 32 s with
  | some x => do
      let a ← v.memory_location.memory_address
      pure (writeBytes m a (leBytes 4 x))
  | none => .error (convErr s)

/-- Embeds `impl Value for u64::get_value`. -/
def u64_get_value (v : Variable) (m : Mem) : Except String Nat := do
  let a ← v.memory_location.memory_address
  pure (fromLeBytes (readBytes m a 8))

/-- Embeds `impl Value for u64::update_value`. -/
def u64_update_value (v : Variable) (m : Mem) (s : String) : Except String Mem :=
  match unsignedFromStr 64 s with
  | some x => do
      let a ← v.memory_location.memory_address
      pure (writeBytes m a (leBytes 8 x))
  | none => .error (convErr s)

/-- Embeds `impl Value for u128::get_value`. -/
def u128_get_value (v : Variable) (m : Mem) : Except String Nat := do
  let a ← v.memory_location.memory_address
  pure (fromLeBytes (readBytes m a 16))

/-- Embeds `impl Value for u128::update_value`. -/
def u128_update_value (v : Variable) (m : Mem) (s : String) : Except String Mem :=
  match unsignedFromStr 128 s with
  | some x => do
      let a ← v.memory_location.memory_address
      pure (writeBytes m a (leBytes 16 x))
  | none => .error (convErr s)

/-- Embeds `impl Value for usize::get_value`: reads a 32-bit word (hard-coded target
word size). -/
def usize_get_value (v : Variable) (m : Mem) : Except String Nat := do
  let a ← v.memory_location.memory_address
  pure (fromLeBytes (readBytes m a 4))

/-- Embeds `impl Value for usize::update_value`: `usize::to_le_bytes` on the (64-bit)
debugger host writes eight bytes. -/
def usize_update_value (v : Variable) (m : Mem) (s : String) : Except String Mem :=
  match unsignedFromStr 64 s with
  | some x => do
      let a ← v.memory_location.memory_address
      pure (writeBytes m a (leBytes 8 x))
  | none => .error (convErr s)

/-- Host-side behaviours the embedding leaves abstract.  Modelled from the
spec: `f32`/`f64` parsing and formatting are the host's floating-point
string routines (§4.1), kept as opaque functions on 32/64-bit IEEE bit
patterns, and `str_get` is the composite `&str` decoder
(`impl Value for String::get_value`), whose UTF-8 decoding is likewise a
host routine.  Every theorem below holds for all instantiations. -/
structure ExternOracles where
  f32_from_str : String → Option Nat
  f64_from_str : String → Option Nat
  f32_display : Nat → String
  f64_display : Nat → String
  str_get : Variable → Mem → Cache → Except String String

/-- Embeds `impl Value for f32::get_value` (bit pattern; rendering is the host's). -/
def f32_get_value (v : Variable) (m : Mem) : Except String Nat := do
  let a ← v.memory_location.memory_address
  pure (fromLeBytes (readBytes m a 4))

/-- Embeds `impl Value for f32::update_value`. -/
def f32_update_value (ex : ExternOracles) (v : Variable) (m : Mem) (s : String) :
    Except String Mem :=
  match ex.f32_from_str s with
  | some bits => do
      let a ← v.memory_location.memory_address
      pure (writeBytes m a (leBytes 4 bits))
  | none => .error (convErr s)

/-- Embeds `impl Value for f64::get_value` (bit pattern; rendering is the host's). -/
def f64_get_value (v : Variable) (m : Mem) : Except String Nat := do
  let a ← v.memory_location.memory_address
  pure (fromLeBytes (readBytes m a 8))

/-- Embeds `impl Value for f64::update_value`. -/
def f64_update_value (ex : ExternOracles) (v : Variable) (m : Mem) (s : String) :
    Except String Mem :=
  match ex.f64_from_str s with
  | some bits => do
      let a ← v.memory_location.memory_address
      pure (writeBytes m a (leBytes 8 bits))
  | none => .error (convErr s)

/-! ## Variable cache (component D)

The hash map primitives below embed `HashMap::contains_key`, `get`, `insert`
and `remove` on the association-list representation; `hm_insert` keeps an
existing entry's position and appends a fresh key at the end of the
iteration order. -/

/-- Embeds `HashMap::contains_key`. -/
def contains_key (c : Cache) (k : Int) : Bool :=
  c.any (fun e => e.1 == k)

/-- Embeds `HashMap::get` (cloned). -/
def hm_get (c : Cache) (k : Int) : Option Variable :=
  (c.find? (fun e => e.1 == k)).map Prod.snd

/-- Embeds `HashMap::insert`: update in place when the key is present, otherwise add
the entry (at the end of the iteration order). -/
def hm_insert (c : Cache) (k : Int) (v : Variable) : Cache :=
  if contains_key c k then c.map (fun e => if e.1 == k then (k, v) else e)
  else c ++ [(k, v)]

/-- Embeds `HashMap::remove`. -/
def hm_remove (c : Cache) (k : Int) : Cache :=
  c.filter (fun e => e.1 != k)

/-- Embeds `HashMap::values` (cloned), in iteration order. -/
def cacheValues (c : Cache) : List Variable :=
  c.map Prod.snd

/-- Structural cache failures (§7 of the spec); the source reports them as
`anyhow` error messages. -/
inductive CacheError where
  | BadParent
  | DuplicateKey
  | UnknownKey
  | StoreFailed
  | RemoveFailed
  deriving DecidableEq

/-- Modelled from the spec: `get_sequential_key` is defined outside `src/`;
§4.2 describes it as a process-wide monotonically increasing signed counter
initialized to 1.  The counter is threaded explicitly: the call returns the
fresh key and the advanced counter. -/
def get_sequential_key (counter : Int) : Int × Int :=
  (counter, counter + 1)

/-- Here `{:#010X}` formatting of an address. -/
def hexDigitChar (d : Nat) : Char :=
  if d < 10 then digitChar d else Char.ofNat (55 + d)

/-- Embeds `format("{:#010X}", address)`. -/
def hexFmt010 (a : Nat) : String :=
  "0x" ++ String.mk ((List.range 8).reverse.map (fun i => hexDigitChar (a / 16 ^ i % 16)))

/-- Map a codec result onto the variable value, as each
`T::get_value(...).map_or_else(...)` call does. -/
def valueOrErr (r : Except String String) : VariableValue :=
  match r with
  | .ok s => .Valid s
  | .error e => .Error e

/-- Embeds `Variable::extract_value`: evaluate the variable's value from target
memory and set `self.value`, or record the failure there.  Mirrors the
source's early exits, the deferred-node placeholder, and the dispatch on the
base-type name. -/
def extract_value (ex : ExternOracles) (self : Variable) (core : Mem)
    (variable_cache : Cache) : Variable :=
  if !self.value.is_empty || self.memory_location == VariableLocation.Value
      || !self.memory_location.valid || self.type_name == VariableType.Unknown then
    self
  else if self.variable_node_type.is_deferred then
    let location :=
      match self.memory_location with
      | .Address address => hexFmt010 address
      | other => other.debugStr
    { self with value := VariableValue.Valid (self.type_name.displayStr ++ " @ " ++ location) }
  else
    let known_value : VariableValue :=
      match self.type_name with
      | .Base name =>
          if self.memory_location == VariableLocation.Unknown then .Empty
          else if name == "!" then .Valid "<Never returns>"
          else if name == "()" then .Valid "()"
          else if name == "bool" then
            valueOrErr ((bool_get_value self core).map (fun b => if b then "true" else "false"))
          else if name == "char" then
            valueOrErr ((char_get_value self core).map (fun ch => String.singleton ch))
          else if name == "i8" then valueOrErr ((i8_get_value self core).map intToText)
          else if name == "i16" then valueOrErr ((i16_get_value self core).map intToText)
          else if name == "i32" then valueOrErr ((i32_get_value self core).map intToText)
          else if name == "i64" then valueOrErr ((i64_get_value self core).map intToText)
          else if name == "i128" then valueOrErr ((i128_get_value self core).map intToText)
          else if name == "isize" then valueOrErr ((isize_get_value self core).map intToText)
          else if name == "u8" then valueOrErr ((u8_get_value self core).map natToText)
          else if name == "u16" then valueOrErr ((u16_get_value self core).map natToText)
          else if name == "u32" then valueOrErr ((u32_get_value self core).map natToText)
          else if name == "u64" then valueOrErr ((u64_get_value self core).map natToText)
          else if name == "u128" then valueOrErr ((u128_get_value self core).map natToText)
          else if name == "usize" then valueOrErr ((usize_get_value self core).map natToText)
          else if name == "f32" then valueOrErr ((f32_get_value self core).map ex.f32_display)
          else if name == "f64" then valueOrErr ((f64_get_value self core).map ex.f64_display)
          else if name == "None" then .Valid "None"
          else .Empty
      | .Struct name =>
          if name == "&str" then valueOrErr (ex.str_get self core variable_cache) else .Empty
      | _ => .Empty
    { self with value := known_value }

/-- Final act of `VariableCache::cache_variable`: re-read the stored entry,
extract its value, and persist it back. -/
def cache_variable_finalize (ex : ExternOracles) (c1 : Cache) (counter : Int)
    (stored_key : Int) (core : Mem) : Except CacheError Variable × Cache × Int :=
  match hm_get c1 stored_key with
  | some stored_variable =>
      if (hm_get c1 (extract_value ex stored_variable core c1).variable_key).isNone then
        (.error .StoreFailed,
          hm_insert c1 (extract_value ex stored_variable core c1).variable_key
            (extract_value ex stored_variable core c1), counter)
      else
        (.ok (extract_value ex stored_variable core c1),
          hm_insert c1 (extract_value ex stored_variable core c1).variable_key
            (extract_value ex stored_variable core c1), counter)
  | none => (.error .StoreFailed, c1, counter)

/-- Add-or-update step of `VariableCache::cache_variable`: add
(`variable_key == 0`, fresh key from the allocator, `DuplicateKey` if the
fresh key collides) or update (`variable_key != 0`, key must be present,
else `UnknownKey`), then extract and persist the value.  Returns the
operation result with the new cache and allocator counter. -/
def cache_variable_store (ex : ExternOracles) (c : Cache) (counter : Int)
    (variable_to_add : Variable) (core : Mem) :
    Except CacheError Variable × Cache × Int :=
  if variable_to_add.variable_key == 0 then
    if (hm_get c (get_sequential_key counter).1).isSome then
      (.error .DuplicateKey,
        hm_insert c (get_sequential_key counter).1
          { variable_to_add with variable_key := (get_sequential_key counter).1 },
        (get_sequential_key counter).2)
    else
      cache_variable_finalize ex
        (hm_insert c (get_sequential_key counter).1
          { variable_to_add with variable_key := (get_sequential_key counter).1 })
        (get_sequential_key counter).2 (get_sequential_key counter).1 core
  else
    if contains_key c variable_to_add.variable_key then
      cache_variable_finalize ex
        (hm_insert c variable_to_add.variable_key variable_to_add)
        counter variable_to_add.variable_key core
    else (.error .UnknownKey, c, counter)

/-- Embeds `VariableCache::cache_variable`: validate the parent key, then perform
the add-or-update and the final extract-and-persist step. -/
def cache_variable (ex : ExternOracles) (c : Cache) (counter : Int)
    (parent_key : Option Int) (cand : Variable) (core : Mem) :
    Except CacheError Variable × Cache × Int :=
  match parent_key with
  | some new_parent_key =>
      if contains_key c new_parent_key then
        cache_variable_store ex c counter { cand with parent_key := parent_key } core
      else (.error .BadParent, c, counter)
  | none => cache_variable_store ex c counter cand core

/-- Embeds `VariableCache::get_variable_by_key`. -/
def get_variable_by_key (c : Cache) (variable_key : Int) : Option Variable :=
  hm_get c variable_key

/-- Embeds `VariableCache::get_variable_by_name_and_parent`: filter the values in
iteration order; none for zero matches, the single match for one, and the
last collected match otherwise. -/
def get_variable_by_name_and_parent (c : Cache) (variable_name : VariableName)
    (parent_key : Option Int) : Option Variable :=
  let child_variables :=
    (cacheValues c).filter
      (fun v => v.name == variable_name && v.parent_key == parent_key)
  match child_variables.length with
  | 0 => none
  | 1 => child_variables.head?
  | _ => child_variables.getLast?

/-- Embeds `VariableCache::get_children`: the values whose `parent_key` equals the
argument, sorted ascending by key (`sort_by_key`). -/
def get_children (c : Cache) (parent_key : Option Int) :
    Except String (List Variable) :=
  .ok (((cacheValues c).filter (fun v => v.parent_key == parent_key)).mergeSort
    (fun a b => decide (a.variable_key ≤ b.variable_key)))

/-- Embeds `VariableCache::has_children`. -/
def has_children (c : Cache) (parent_variable : Variable) : Except String Bool :=
  (get_children c (some parent_variable.variable_key)).map (fun l => !l.isEmpty)

/-- Loop body of `VariableCache::remove_cache_entry_children`: remove each
collected child by key, failing with `RemoveFailed` if an expected entry is
missing. -/
def removeEach : List Variable → Cache → Except CacheError Unit × Cache
  | [], c => (.ok (), c)
  | child :: rest, c =>
      if contains_key c child.variable_key then
        removeEach rest (hm_remove c child.variable_key)
      else (.error .RemoveFailed, c)

/-- Embeds `VariableCache::remove_cache_entry_children`: collect the current direct
children of the key and remove each of them. -/
def remove_cache_entry_children (c : Cache) (parent_variable_key : Int) :
    Except CacheError Unit × Cache :=
  removeEach
    ((cacheValues c).filter (fun v => v.parent_key == some parent_variable_key)) c

/-- Embeds `VariableCache::remove_cache_entry`: remove the entry's children, then
the entry itself (`RemoveFailed` if it is absent). -/
def remove_cache_entry (c : Cache) (variable_key : Int) :
    Except CacheError Unit × Cache :=
  match remove_cache_entry_children c variable_key with
  | (.ok _, c1) =>
      if contains_key c1 variable_key then (.ok (), hm_remove c1 variable_key)
      else (.error .RemoveFailed, c1)
  | (.error e, c1) => (.error e, c1)

/-- Embeds `VariableCache::adopt_grand_children`, the `for_each` closure: unless the
obsolete child is a typed `DoNotRecurse` node, every variable whose parent is
the obsolete child is reassigned to the new parent. -/
def reassignParent (new_parent_key obsolete_key : Int) (e : Int × Variable) :
    Int × Variable :=
  if e.2.parent_key == some obsolete_key then
    (e.1, { e.2 with parent_key := some new_parent_key })
  else e

/-- Embeds `VariableCache::adopt_grand_children` (continued): the guarded
reassign-then-delete sequence. -/
def adopt_grand_children (c : Cache) (parent_variable : Variable)
    (obsolete_child_variable : Variable) : Except CacheError Unit × Cache :=
  if obsolete_child_variable.type_name == VariableType.Unknown
      || obsolete_child_variable.variable_node_type != VariableNodeType.DoNotRecurse then
    let c1 := c.map (reassignParent parent_variable.variable_key
      obsolete_child_variable.variable_key)
    remove_cache_entry c1 obsolete_child_variable.variable_key
  else (.ok (), c)

/-! ## Target write-back: `Variable::update_value` -/

/-- The up-front precondition check of `Variable::update_value`: the current
value must be valid, the type known, and the memory location usable. -/
def update_value_guard (self : Variable) : Bool :=
  !self.is_valid || self.type_name == VariableType.Unknown
    || !self.memory_location.valid

/-- Scalar type names registered in the codec registry (the
`match name.as_str()` arms of `Variable::update_value`). -/
def registered_scalars : List String :=
  ["bool", "char", "i8", "i16", "i32", "i64", "i128", "isize",
   "u8", "u16", "u32", "u64", "u128", "usize", "f32", "f64"]

/-- Whether `new_value` parses as the named registered scalar (the `FromStr`
call inside the corresponding `update_value` impl succeeds). -/
def scalar_parses (ex : ExternOracles) (name : String) (s : String) : Bool :=
  if name == "bool" then (boolFromStr s).isSome
  else if name == "char" then (charFromStr s).isSome
  else if name == "i8" then (signedFromStr 8 s).isSome
  else if name == "i16" then (signedFromStr 16 s).isSome
  else if name == "i32" then (signedFromStr 32 s).isSome
  else if name == "i64" then (signedFromStr 64 s).isSome
  else if name == "i128" then (signedFromStr 128 s).isSome
  else if name == "isize" then (signedFromStr 64 s).isSome
  else if name == "u8" then (unsignedFromStr 8 s).isSome
  else if name == "u16" then (unsignedFromStr 16 s).isSome
  else if name == "u32" then (unsignedFromStr 32 s).isSome
  else if name == "u64" then (unsignedFromStr 64 s).isSome
  else if name == "u128" then (unsignedFromStr 128 s).isSome
  else if name == "usize" then (unsignedFromStr 64 s).isSome
  else if name == "f32" then (ex.f32_from_str s).isSome
  else if name == "f64" then (ex.f64_from_str s).isSome
  else false

/-- Dispatch of `Variable::update_value` on the base-type name: the matching
codec write, or the source's unsupported-datatype error. -/
def base_update_dispatch (ex : ExternOracles) (self : Variable) (core : Mem)
    (name : String) (new_value : String) : Except String Mem :=
  if name == "bool" then bool_update_value self core new_value
  else if name == "char" then char_update_value self core new_value
  else if name == "i8" then i8_update_value self core new_value
  else if name == "i16" then i16_update_value self core new_value
  else if name == "i32" then i32_update_value self core new_value
  else if name == "i64" then i64_update_value self core new_value
  else if name == "i128" then i128_update_value self core new_value
  else if name == "isize" then isize_update_value self core new_value
  else if name == "u8" then u8_update_value self core new_value
  else if name == "u16" then u16_update_value self core new_value
  else if name == "u32" then u32_update_value self core new_value
  else if name == "u64" then u64_update_value self core new_value
  else if name == "u128" then u128_update_value self core new_value
  else if name == "usize" then usize_update_value self core new_value
  else if name == "f32" then f32_update_value ex self core new_value
  else if name == "f64" then f64_update_value ex self core new_value
  else
    .error ("Unsupported datatype: " ++ name
      ++ ". Please only update variables with a base data type.")

/-- Commit step of `Variable::update_value`: after a successful target
write, re-intern the variable with `value = Valid(new_text)` through
`cache_variable`. -/
def update_value_commit (ex : ExternOracles) (self : Variable) (core' : Mem)
    (variable_cache : Cache) (counter : Int) (new_value : String) :
    Except String String × Mem × Cache × Int :=
  match cache_variable ex variable_cache counter self.parent_key
      { self with value := VariableValue.Valid new_value } core' with
  | (.ok _, cache', counter') => (.ok new_value, core', cache', counter')
  | (.error _, cache', counter') =>
      (.error "VariableCache: failed to store the updated variable.",
        core', cache', counter')

/-- Embeds `Variable::update_value`: check the preconditions, refuse pointer
writes, encode and write the new scalar value to target memory, then
re-intern the variable through `cache_variable` with the new textual
value. -/
def Variable.update_value (ex : ExternOracles) (self : Variable) (core : Mem)
    (variable_cache : Cache) (counter : Int) (new_value : String) :
    Except String String × Mem × Cache × Int :=
  if update_value_guard self then
    (.error ("Cannot update variable: " ++ self.name.displayStr
      ++ ", with supplied information."), core, variable_cache, counter)
  else if (match self.name with | .Named n => n | _ => "").startsWith "*" then
    (.error ("Please only update variables with a base data type. "
      ++ "Updating pointer variable types is not yet supported."),
      core, variable_cache, counter)
  else
    match (match self.type_name with
      | .Base name => base_update_dispatch ex self core name new_value
      | _ => .error "Unsupported variable type. Only base variables can be updated.") with
    | .ok core' => update_value_commit ex self core' variable_cache counter new_value
    | .error e => (.error ("Invalid data value=" ++ new_value ++ ": " ++ e),
        core, variable_cache, counter)


/-! ## Concrete variables, caches, traces and oracle instantiations used by
the witnesses and counterexamples below -/

/-- Hash-map shape every reachable cache has: entry keys are distinct, and
each stored variable records its own map key. -/
def CacheWF (c : Cache) : Prop :=
  (c.map Prod.fst).Nodup ∧ ∀ e ∈ c, (Prod.snd e).variable_key = e.1

instance (c : Cache) : Decidable (CacheWF c) := by
  unfold CacheWF; infer_instance

/-- A concrete oracle instantiation (the theorems hold for every
instantiation; witnesses need a computable one). -/
def trivialOracles : ExternOracles :=
  { f32_from_str := fun _ => none
    f64_from_str := fun _ => none
    f32_display := fun _ => "0"
    f64_display := fun _ => "0"
    str_get := fun _ _ _ => Except.error "no &str decoding" }

/-- All-zero target memory. -/
def mem0 : Mem := fun _ => 0

/-- Decidable equality for `Except` results, used to evaluate concrete
operation traces. -/
instance {e a : Type} [DecidableEq e] [DecidableEq a] : DecidableEq (Except e a) :=
  fun x y =>
    match x, y with
    | .ok u, .ok v =>
        if h : u = v then .isTrue (by rw [h])
        else .isFalse (fun hc => h (Except.ok.inj hc))
    | .error u, .error v =>
        if h : u = v then .isTrue (by rw [h])
        else .isFalse (fun hc => h (Except.error.inj hc))
    | .ok _, .error _ => .isFalse (fun hc => Except.noConfusion hc)
    | .error _, .ok _ => .isFalse (fun hc => Except.noConfusion hc)

/-- Root of a three-level parent chain. -/
def chainRoot : Variable := { variable_key := 1, name := VariableName.Named "a" }

/-- Middle node: child of `chainRoot`. -/
def chainMid : Variable :=
  { variable_key := 2, parent_key := some 1, name := VariableName.Named "b" }

/-- Leaf: child of `chainMid`, hence grandchild of `chainRoot`. -/
def chainLeaf : Variable :=
  { variable_key := 3, parent_key := some 2, name := VariableName.Named "c" }

/-- A well-formed three-level cache 1 ← 2 ← 3. -/
def chainCache : Cache := [(1, chainRoot), (2, chainMid), (3, chainLeaf)]

/-- First public operation of the C1 trace: intern a fresh root into the
empty cache (counter starts at 1). -/
def traceStep1 : Except CacheError Variable × Cache × Int :=
  cache_variable trivialOracles [] 1 none {} mem0

/-- Second operation: intern a fresh child of key 1. -/
def traceStep2 : Except CacheError Variable × Cache × Int :=
  cache_variable trivialOracles traceStep1.2.1 traceStep1.2.2 (some 1) {} mem0

/-- Third operation: intern a fresh child of key 2. -/
def traceStep3 : Except CacheError Variable × Cache × Int :=
  cache_variable trivialOracles traceStep2.2.1 traceStep2.2.2 (some 2) {} mem0

/-- Fourth operation: remove entry 1 (and, per its contract, all its
descendants). -/
def traceFinal : Except CacheError Unit × Cache :=
  remove_cache_entry traceStep3.2.1 1

/-- Two cached variables with the same name and root parent, stored so that
the cache's iteration order lists the larger key first. -/
def dupFirst : Variable := { variable_key := 1, name := VariableName.Named "x" }

/-- The larger-keyed duplicate of `dupFirst`. -/
def dupSecond : Variable := { variable_key := 2, name := VariableName.Named "x" }

/-- A well-formed cache state whose iteration order lists key 2 before
key 1 (hash map iteration order is unrelated to keys). -/
def dupCache : Cache := [(2, dupSecond), (1, dupFirst)]

/-- A variable that only carries a target address (the codec impls read
nothing else). -/
def atAddr (a : Nat) : Variable := { memory_location := VariableLocation.Address a }

/-- New parent for the C8 witness. -/
def adoptP : Variable := { variable_key := 1, name := VariableName.Named "p" }

/-- Intermediate (obsolete) node for the C8 witness: type `Unknown`, child of
`adoptP`. -/
def adoptI : Variable := { variable_key := 2, parent_key := some 1 }

/-- Grandchild for the C8 witness: child of `adoptI`. -/
def adoptG : Variable :=
  { variable_key := 3, parent_key := some 2, name := VariableName.Named "g" }

/-- Three-level cache for the C8 witness. -/
def adoptCache : Cache := [(1, adoptP), (2, adoptI), (3, adoptG)]

/-- An `isSome = false` option is `none`. -/
theorem eq_none_of_isSome_false {α : Type} {o : Option α} (h : o.isSome = false) :
    o = none := by
  cases o
  · rfl
  · simp at h

/-- Here `bool::update_value` fails when the text does not parse. -/
theorem bool_update_value_error (v : Variable) (m : Mem) (s : String)
    (h : boolFromStr s = none) : ∃ e, bool_update_value v m s = Except.error e := by
  unfold bool_update_value
  rcases haddr : v.memory_location.memory_address with er | a
  · exact ⟨er, rfl⟩
  · exact ⟨convErr s, by rw [h]; rfl⟩

/-- Here `char::update_value` fails when the text does not parse. -/
theorem char_update_value_error (v : Variable) (m : Mem) (s : String)
    (h : charFromStr s = none) : ∃ e, char_update_value v m s = Except.error e := by
  unfold char_update_value
  rcases haddr : v.memory_location.memory_address with er | a
  · exact ⟨er, rfl⟩
  · exact ⟨convErr s, by rw [h]; rfl⟩

/-- Here `i8::update_value` fails when the text does not parse. -/
theorem i8_update_value_error (v : Variable) (m : Mem) (s : String)
    (h : signedFromStr 8 s = none) : ∃ e, i8_update_value v m s = Except.error e := by
  unfold i8_update_value
  rcases haddr : v.memory_location.memory_address with er | a
  · exact ⟨er, rfl⟩
  · exact ⟨convErr s, by rw [h]; rfl⟩

/-- Here `u8::update_value` fails when the text does not parse. -/
theorem u8_update_value_error (v : Variable) (m : Mem) (s : String)
    (h : unsignedFromStr 8 s = none) : ∃ e, u8_update_value v m s = Except.error e := by
  unfold u8_update_value
  rcases haddr : v.memory_location.memory_address with er | a
  · exact ⟨er, rfl⟩
  · exact ⟨convErr s, by rw [h]; rfl⟩

/-- Here `i16::update_value` fails when the text does not parse. -/
theorem i16_update_value_error (v : Variable) (m : Mem) (s : String)
    (h : signedFromStr 16 s = none) : i16_update_value v m s = Except.error (convErr s) := by
  unfold i16_update_value
  rw [h]

/-- Here `i32::update_value` fails when the text does not parse. -/
theorem i32_update_value_error (v : Variable) (m : Mem) (s : String)
    (h : signedFromStr 32 s = none) : i32_update_value v m s = Except.error (convErr s) := by
  unfold i32_update_value
  rw [h]

/-- Here `i64::update_value` fails when the text does not parse. -/
theorem i64_update_value_error (v : Variable) (m : Mem) (s : String)
    (h : signedFromStr 64 s = none) : i64_update_value v m s = Except.error (convErr s) := by
  unfold i64_update_value
  rw [h]

/-- Here `i128::update_value` fails when the text does not parse. -/
theorem i128_update_value_error (v : Variable) (m : Mem) (s : String)
    (h : signedFromStr 128 s = none) : i128_update_value v m s = Except.error (convErr s) := by
  unfold i128_update_value
  rw [h]

/-- Here `isize::update_value` fails when the text does not parse. -/
theorem isize_update_value_error (v : Variable) (m : Mem) (s : String)
    (h : signedFromStr 64 s = none) : isize_update_value v m s = Except.error (convErr s) := by
  unfold isize_update_value
  rw [h]

/-- Here `u16::update_value` fails when the text does not parse. -/
theorem u16_update_value_error (v : Variable) (m : Mem) (s : String)
    (h : unsignedFromStr 16 s = none) : u16_update_value v m s = Except.error (convErr s) := by
  unfold u16_update_value
  rw [h]

/-- Here `u32::update_value` fails when the text does not parse. -/
theorem u32_update_value_error (v : Variable) (m : Mem) (s : String)
    (h : unsignedFromStr 32 s = none) : u32_update_value v m s = Except.error (convErr s) := by
  unfold u32_update_value
  rw [h]

/-- Here `u64::update_value` fails when the text does not parse. -/
theorem u64_update_value_error (v : Variable) (m : Mem) (s : String)
    (h : unsignedFromStr 64 s = none) : u64_update_value v m s = Except.error (convErr s) := by
  unfold u64_update_value
  rw [h]

/-- Here `u128::update_value` fails when the text does not parse. -/
theorem u128_update_value_error (v : Variable) (m : Mem) (s : String)
    (h : unsignedFromStr 128 s = none) : u128_update_value v m s = Except.error (convErr s) := by
  unfold u128_update_value
  rw [h]

/-- Here `usize::update_value` fails when the text does not parse. -/
theorem usize_update_value_error (v : Variable) (m : Mem) (s : String)
    (h : unsignedFromStr 64 s = none) : usize_update_value v m s = Except.error (convErr s) := by
  unfold usize_update_value
  rw [h]

/-- Here `f32::update_value` fails when the text does not parse. -/
theorem f32_update_value_error (ex : ExternOracles) (v : Variable) (m : Mem)
    (s : String) (h : ex.f32_from_str s = none) :
    f32_update_value ex v m s = Except.error (convErr s) := by
  unfold f32_update_value
  rw [h]

/-- Here `f64::update_value` fails when the text does not parse. -/
theorem f64_update_value_error (ex : ExternOracles) (v : Variable) (m : Mem)
    (s : String) (h : ex.f64_from_str s = none) :
    f64_update_value ex v m s = Except.error (convErr s) := by
  unfold f64_update_value
  rw [h]

/-- When the text does not parse as the named scalar (including every
unregistered name), the dispatch of `update_value` produces an error. -/
theorem base_update_dispatch_error (ex : ExternOracles) (v : Variable)
    (core : Mem) (name s : String) (h : scalar_parses ex name s = false) :
    ∃ e, base_update_dispatch ex v core name s = Except.error e := by
  unfold scalar_parses at h
  unfold base_update_dispatch
  by_cases h0 : (name == "bool") = true
  · rw [if_pos h0] at h ⊢
    exact bool_update_value_error v core s (eq_none_of_isSome_false h)
  · rw [if_neg h0] at h ⊢
    by_cases h1 : (name == "char") = true
    · rw [if_pos h1] at h ⊢
      exact char_update_value_error v core s (eq_none_of_isSome_false h)
    · rw [if_neg h1] at h ⊢
      by_cases h2 : (name == "i8") = true
      · rw [if_pos h2] at h ⊢
        exact i8_update_value_error v core s (eq_none_of_isSome_false h)
      · rw [if_neg h2] at h ⊢
        by_cases h3 : (name == "i16") = true
        · rw [if_pos h3] at h ⊢
          exact ⟨convErr s, i16_update_value_error v core s (eq_none_of_isSome_false h)⟩
        · rw [if_neg h3] at h ⊢
          by_cases h4 : (name == "i32") = true
          · rw [if_pos h4] at h ⊢
            exact ⟨convErr s, i32_update_value_error v core s (eq_none_of_isSome_false h)⟩
          · rw [if_neg h4] at h ⊢
            by_cases h5 : (name == "i64") = true
            · rw [if_pos h5] at h ⊢
              exact ⟨convErr s, i64_update_value_error v core s (eq_none_of_isSome_false h)⟩
            · rw [if_neg h5] at h ⊢
              by_cases h6 : (name == "i128") = true
              · rw [if_pos h6] at h ⊢
                exact ⟨convErr s, i128_update_value_error v core s (eq_none_of_isSome_false h)⟩
              · rw [if_neg h6] at h ⊢
                by_cases h7 : (name == "isize") = true
                · rw [if_pos h7] at h ⊢
                  exact ⟨convErr s, isize_update_value_error v core s (eq_none_of_isSome_false h)⟩
                · rw [if_neg h7] at h ⊢
                  by_cases h8 : (name == "u8") = true
                  · rw [if_pos h8] at h ⊢
                    exact u8_update_value_error v core s (eq_none_of_isSome_false h)
                  · rw [if_neg h8] at h ⊢
                    by_cases h9 : (name == "u16") = true
                    · rw [if_pos h9] at h ⊢
                      exact ⟨convErr s, u16_update_value_error v core s (eq_none_of_isSome_false h)⟩
                    · rw [if_neg h9] at h ⊢
                      by_cases h10 : (name == "u32") = true
                      · rw [if_pos h10] at h ⊢
                        exact ⟨convErr s, u32_update_value_error v core s (eq_none_of_isSome_false h)⟩
                      · rw [if_neg h10] at h ⊢
                        by_cases h11 : (name == "u64") = true
                        · rw [if_pos h11] at h ⊢
                          exact ⟨convErr s, u64_update_value_error v core s (eq_none_of_isSome_false h)⟩
                        · rw [if_neg h11] at h ⊢
                          by_cases h12 : (name == "u128") = true
                          · rw [if_pos h12] at h ⊢
                            exact ⟨convErr s, u128_update_value_error v core s (eq_none_of_isSome_false h)⟩
                          · rw [if_neg h12] at h ⊢
                            by_cases h13 : (name == "usize") = true
                            · rw [if_pos h13] at h ⊢
                              exact ⟨convErr s, usize_update_value_error v core s (eq_none_of_isSome_false h)⟩
                            · rw [if_neg h13] at h ⊢
                              by_cases h14 : (name == "f32") = true
                              · rw [if_pos h14] at h ⊢
                                exact ⟨convErr s, f32_update_value_error ex v core s (eq_none_of_isSome_false h)⟩
                              · rw [if_neg h14] at h ⊢
                                by_cases h15 : (name == "f64") = true
                                · rw [if_pos h15] at h ⊢
                                  exact ⟨convErr s, f64_update_value_error ex v core s (eq_none_of_isSome_false h)⟩
                                · rw [if_neg h15] at h ⊢
                                  exact ⟨_, rfl⟩

/-- An unregistered scalar name never parses. -/
theorem scalar_parses_false_of_unregistered (ex : ExternOracles) (name s : String)
    (h : ¬ name ∈ registered_scalars) : scalar_parses ex name s = false := by
  unfold scalar_parses
  rw [if_neg (by simp; intro hx; exact h (by rw [hx]; decide))]
  rw [if_neg (by simp; intro hx; exact h (by rw [hx]; decide))]
  rw [if_neg (by simp; intro hx; exact h (by rw [hx]; decide))]
  rw [if_neg (by simp; intro hx; exact h (by rw [hx]; decide))]
  rw [if_neg (by simp; intro hx; exact h (by rw [hx]; decide))]
  rw [if_neg (by simp; intro hx; exact h (by rw [hx]; decide))]
  rw [if_neg (by simp; intro hx; exact h (by rw [hx]; decide))]
  rw [if_neg (by simp; intro hx; exact h (by rw [hx]; decide))]
  rw [if_neg (by simp; intro hx; exact h (by rw [hx]; decide))]
  rw [if_neg (by simp; intro hx; exact h (by rw [hx]; decide))]
  rw [if_neg (by simp; intro hx; exact h (by rw [hx]; decide))]
  rw [if_neg (by simp; intro hx; exact h (by rw [hx]; decide))]
  rw [if_neg (by simp; intro hx; exact h (by rw [hx]; decide))]
  rw [if_neg (by simp; intro hx; exact h (by rw [hx]; decide))]
  rw [if_neg (by simp; intro hx; exact h (by rw [hx]; decide))]
  rw [if_neg (by simp; intro hx; exact h (by rw [hx]; decide))]

/-- An absent key yields no entry. -/
theorem hm_get_eq_none (c : Cache) (k : Int) (h : contains_key c k = false) :
    hm_get c k = none := by
  unfold hm_get
  rw [List.find?_eq_none.mpr]
  · rfl
  · intro e he
    unfold contains_key at h
    intro hk
    have : c.any (fun e => e.1 == k) = true := List.any_eq_true.mpr ⟨e, he, hk⟩
    rw [h] at this
    cases this

/-- The allocator's next key is never already a cache key. -/
theorem contains_key_counter_false (c : Cache) (counter : Int)
    (hctr : ∀ e ∈ c, e.1 < counter) : contains_key c counter = false := by
  unfold contains_key
  rw [List.any_eq_false]
  intro e he
  have := hctr e he
  simp
  omega

/-- Rewriting the entry for a present key makes `find?` return it. -/
theorem find_map_insert (k : Int) (v : Variable) : ∀ (c : Cache),
    c.any (fun e => e.1 == k) = true →
    (c.map (fun e => if (e.1 == k) = true then (k, v) else e)).find?
      (fun e => e.1 == k) = some (k, v) := by
  intro c
  induction c with
  | nil => intro h; simp at h
  | cons e0 t ih =>
      intro hc
      rw [List.map_cons]
      by_cases h0 : (e0.1 == k) = true
      · rw [if_pos h0, List.find?_cons,
          show ((k, v).1 == k) = true from beq_self_eq_true k]
      · have h0' : (e0.1 == k) = false := by
          cases hb : (e0.1 == k)
          · rfl
          · exact absurd hb h0
        rw [if_neg h0, List.find?_cons, h0']
        show List.find? (fun e => e.1 == k)
          (t.map (fun e => if (e.1 == k) = true then (k, v) else e)) = some (k, v)
        apply ih
        rcases List.any_eq_true.mp hc with ⟨e, he, hk⟩
        rcases List.mem_cons.mp he with rfl | he'
        · exact absurd hk h0
        · exact List.any_eq_true.mpr ⟨e, he', hk⟩

/-- Appending an entry for an absent key makes `find?` return it. -/
theorem find_append_new (k : Int) (v : Variable) : ∀ (c : Cache),
    c.any (fun e => e.1 == k) = false →
    (c ++ [(k, v)]).find? (fun e => e.1 == k) = some (k, v) := by
  intro c
  induction c with
  | nil =>
      intro _
      rw [List.nil_append, List.find?_cons,
        show ((k, v).1 == k) = true from beq_self_eq_true k]
  | cons e0 t ih =>
      intro hc
      simp only [List.any_cons, Bool.or_eq_false_iff] at hc
      rw [List.cons_append, List.find?_cons, hc.1]
      show List.find? (fun e => e.1 == k) (t ++ [(k, v)]) = some (k, v)
      exact ih hc.2

/-- Fetching a just-inserted key returns the inserted variable. -/
theorem hm_get_insert_self (c : Cache) (k : Int) (v : Variable) :
    hm_get (hm_insert c k v) k = some v := by
  unfold hm_insert hm_get
  by_cases hc : contains_key c k = true
  · rw [if_pos hc, find_map_insert k v c hc]
    rfl
  · rw [if_neg hc]
    have hc' : c.any (fun e => e.1 == k) = false := by
      cases h : contains_key c k
      · exact h
      · exact absurd h hc
    rw [find_append_new k v c hc']
    rfl

/-- Here `extract_value` only rewrites the variable's value; the key is kept. -/
theorem extract_value_key (ex : ExternOracles) (self : Variable) (core : Mem)
    (vc : Cache) : (extract_value ex self core vc).variable_key = self.variable_key := by
  unfold extract_value
  by_cases h1 : (!self.value.is_empty || self.memory_location == VariableLocation.Value
      || !self.memory_location.valid || self.type_name == VariableType.Unknown) = true
  · rw [if_pos h1]
  · rw [if_neg h1]
    by_cases h2 : self.variable_node_type.is_deferred = true
    · rw [if_pos h2]
    · rw [if_neg h2]

/-- The finalize step succeeds whenever the stored key is present and is the
stored variable's own key. -/
theorem cache_variable_finalize_run (ex : ExternOracles) (c1 : Cache)
    (counter : Int) (k : Int) (core : Mem) (v : Variable)
    (hget : hm_get c1 k = some v) (hkey : v.variable_key = k) :
    cache_variable_finalize ex c1 counter k core =
      (Except.ok (extract_value ex v core c1),
        hm_insert c1 (extract_value ex v core c1).variable_key
          (extract_value ex v core c1), counter) := by
  have h2 : (extract_value ex v core c1).variable_key = k := by
    rw [extract_value_key]; exact hkey
  unfold cache_variable_finalize
  rw [hget]
  show (if (hm_get c1 (extract_value ex v core c1).variable_key).isNone = true then
      (Except.error CacheError.StoreFailed,
        hm_insert c1 (extract_value ex v core c1).variable_key
          (extract_value ex v core c1), counter)
    else
      (Except.ok (extract_value ex v core c1),
        hm_insert c1 (extract_value ex v core c1).variable_key
          (extract_value ex v core c1), counter)) =
    (Except.ok (extract_value ex v core c1),
      hm_insert c1 (extract_value ex v core c1).variable_key
        (extract_value ex v core c1), counter)
  rw [h2, hget]
  rfl

/-- When `cache_variable_store` fails on a cache whose keys are all below
the allocator counter, the cache is left unchanged. -/
theorem cache_variable_store_err_unchanged (ex : ExternOracles) (c : Cache)
    (counter : Int) (cand : Variable) (core : Mem)
    (hctr : ∀ e ∈ c, e.1 < counter) (er : CacheError)
    (h : (cache_variable_store ex c counter cand core).1 = Except.error er) :
    (cache_variable_store ex c counter cand core).2.1 = c := by
  unfold cache_variable_store at h ⊢
  by_cases h0 : (cand.variable_key == 0) = true
  · rw [if_pos h0] at h ⊢
    have hfresh : hm_get c (get_sequential_key counter).1 = none :=
      hm_get_eq_none c counter (contains_key_counter_false c counter hctr)
    rw [hfresh] at h ⊢
    simp only [Option.isSome_none, Bool.false_eq_true, if_false] at h ⊢
    rw [cache_variable_finalize_run ex _ _ _ core
      { cand with variable_key := (get_sequential_key counter).1 }
      (hm_get_insert_self c _ _) rfl] at h
    exact Except.noConfusion h
  · rw [if_neg h0] at h ⊢
    by_cases hck : contains_key c cand.variable_key = true
    · rw [if_pos hck] at h ⊢
      rw [cache_variable_finalize_run ex _ _ _ core cand
        (hm_get_insert_self c _ _) rfl] at h
      exact Except.noConfusion h
    · rw [if_neg hck] at h ⊢

/-- When `cache_variable` fails on a cache whose keys are all below the
allocator counter, the cache is left unchanged. -/
theorem cache_variable_err_unchanged (ex : ExternOracles) (c : Cache)
    (counter : Int) (pk : Option Int) (cand : Variable) (core : Mem)
    (hctr : ∀ e ∈ c, e.1 < counter) (er : CacheError)
    (h : (cache_variable ex c counter pk cand core).1 = Except.error er) :
    (cache_variable ex c counter pk cand core).2.1 = c := by
  match pk with
  | none =>
      simp only [cache_variable] at h ⊢
      exact cache_variable_store_err_unchanged ex c counter cand core hctr er h
  | some k =>
      simp only [cache_variable] at h ⊢
      by_cases hck : contains_key c k = true
      · rw [if_pos hck] at h ⊢
        exact cache_variable_store_err_unchanged ex c counter _ core hctr er h
      · rw [if_neg hck] at h ⊢



/-! ## Concrete instantiations used by witnesses and counterexamples -/



end ProbeRs

namespace ProbeRs

/-! ## Theorems -/

/-- C9: for every current value `v` and new value `n`, `set_value` replaces
the stored value with `n` when `n` is `Valid`; replaces it when `n` is an
`Error` and the current value is `Valid`; and when `n` is an `Error` and the
current value is not valid, stores the `Error` concatenating the two
displayed messages as `current : new`. -/
theorem set_value_policy (v : Variable) (n : VariableValue) :
    ((∃ s, n = VariableValue.Valid s) → (v.set_value n).value = n) ∧
    ((∃ s, n = VariableValue.Error s) → (∃ s, v.value = VariableValue.Valid s) →
      (v.set_value n).value = n) ∧
    ((∃ s, n = VariableValue.Error s) → v.value.is_valid = false →
      (v.set_value n).value =
        VariableValue.Error (v.value.displayStr ++ " : " ++ n.displayStr)) := by
  refine ⟨?_, ?_, ?_⟩
  · rintro ⟨s, rfl⟩
    simp [Variable.set_value, VariableValue.is_valid]
  · rintro ⟨s, rfl⟩ ⟨t, hv⟩
    simp [Variable.set_value, VariableValue.is_valid, hv]
  · rintro ⟨s, rfl⟩ hv
    obtain ⟨t, hvv⟩ : ∃ t, v.value = VariableValue.Error t := by
      cases h : v.value <;> simp [h, VariableValue.is_valid] at hv ⊢
    simp [Variable.set_value, VariableValue.is_valid, hvv]

/-- Witness for C9 at concrete values: an error written over an error
concatenates the displayed messages. -/
theorem set_value_policy_witness :
    (∃ s, VariableValue.Error "new" = VariableValue.Error s) ∧
    (VariableValue.Error "old" : VariableValue).is_valid = false ∧
    (({ value := VariableValue.Error "old" : Variable }).set_value
        (VariableValue.Error "new")).value =
      VariableValue.Error "< old > : < new >" :=
  ⟨⟨"new", rfl⟩, by decide,
    (set_value_policy { value := VariableValue.Error "old" }
      (VariableValue.Error "new")).2.2 ⟨"new", rfl⟩ (by decide)⟩

/-- C10: `VariableValue::is_valid` is true for `Empty` and `Valid(_)` and
false only for `Error(_)`; hence the validity precondition of `update_value`
admits a variable whose value was never set, and rejects on that check
exactly the variables carrying an `Error` value. -/
theorem is_valid_admits_empty :
    (VariableValue.Empty.is_valid = true) ∧
    (∀ s, (VariableValue.Valid s).is_valid = true) ∧
    (∀ s, (VariableValue.Error s).is_valid = false) ∧
    (∀ v : Variable, v.value = VariableValue.Empty →
      update_value_guard v =
        (v.type_name == VariableType.Unknown || !v.memory_location.valid)) ∧
    (∀ v : Variable, (∃ s, v.value = VariableValue.Error s) →
      update_value_guard v = true) := by
  refine ⟨rfl, fun s => rfl, fun s => rfl, ?_, ?_⟩
  · intro v hv
    simp [update_value_guard, Variable.is_valid, hv, VariableValue.is_valid]
  · rintro v ⟨s, hv⟩
    simp [update_value_guard, Variable.is_valid, hv, VariableValue.is_valid]

/-- Witness for C10 at concrete variables: the guard passes an `Empty`-valued
variable with a known type and valid location, and rejects an error-valued
one. -/
theorem is_valid_admits_empty_witness :
    (({ value := VariableValue.Empty, type_name := VariableType.Base "u32",
        memory_location := VariableLocation.Address 4 : Variable }).value =
      VariableValue.Empty) ∧
    update_value_guard
      { value := VariableValue.Empty, type_name := VariableType.Base "u32",
        memory_location := VariableLocation.Address 4 } = false ∧
    update_value_guard { value := VariableValue.Error "e" } = true := by
  refine ⟨rfl, ?_, ?_⟩
  · have h := is_valid_admits_empty.2.2.2.1
      { value := VariableValue.Empty, type_name := VariableType.Base "u32",
        memory_location := VariableLocation.Address 4 } rfl
    rw [h]; decide
  · exact is_valid_admits_empty.2.2.2.2 { value := VariableValue.Error "e" } ⟨"e", rfl⟩

/-- C4: `cache_variable` fails with `BadParent` when the supplied parent key
is absent from the cache, and with `UnknownKey` when the candidate carries a
nonzero key that is absent; in both failure cases the cache (and the key
counter) are returned unchanged. -/
theorem cache_variable_failure_no_mutation (ex : ExternOracles) (c : Cache)
    (counter : Int) (pk : Option Int) (cand : Variable) (core : Mem) :
    (∀ k, pk = some k → contains_key c k = false →
      cache_variable ex c counter pk cand core =
        (Except.error CacheError.BadParent, c, counter)) ∧
    ((pk = none ∨ ∃ k, pk = some k ∧ contains_key c k = true) →
      cand.variable_key ≠ 0 → contains_key c cand.variable_key = false →
      cache_variable ex c counter pk cand core =
        (Except.error CacheError.UnknownKey, c, counter)) := by
  constructor
  · rintro k rfl hk
    simp [cache_variable, hk]
  · rintro (rfl | ⟨k, rfl, hk⟩) hnz habs
    · simp [cache_variable, cache_variable_store, habs, hnz]
    · simp [cache_variable, cache_variable_store, hk, habs, hnz]

/-- Witness for C4 at concrete inputs: both failure shapes on small caches,
leaving them untouched. -/
theorem cache_variable_failure_no_mutation_witness :
    (some (5 : Int) = some 5 ∧ contains_key [] 5 = false ∧
      cache_variable trivialOracles [] 1 (some 5) {} mem0 =
        (Except.error CacheError.BadParent, [], 1)) ∧
    ((7 : Int) ≠ 0 ∧ contains_key [] 7 = false ∧
      cache_variable trivialOracles [] 1 none { variable_key := 7 } mem0 =
        (Except.error CacheError.UnknownKey, [], 1)) :=
  ⟨⟨rfl, by decide,
    (cache_variable_failure_no_mutation trivialOracles [] 1 (some 5) {} mem0).1
      5 rfl (by decide)⟩,
   ⟨by decide, by decide,
    (cache_variable_failure_no_mutation trivialOracles [] 1 none
        { variable_key := 7 } mem0).2 (Or.inl rfl) (by decide) (by decide)⟩⟩

/-- C7: `update_value` returns an error whenever the variable's current
value is not valid, its type is `Unknown`, its memory location is not
usable, its `Named` name starts with `*`, its type is not a registered
base scalar, or the new text does not parse as that scalar; and whenever
`update_value` returns an error, the cache is left unchanged. -/
theorem update_value_errors_no_commit (ex : ExternOracles) (v : Variable)
    (core : Mem) (c : Cache) (counter : Int) (s : String)
    (hctr : ∀ e ∈ c, e.1 < counter) :
    ((v.is_valid = false ∨ v.type_name = VariableType.Unknown ∨
      v.memory_location.valid = false ∨
      (∃ n, v.name = VariableName.Named n ∧ n.startsWith "*" = true) ∨
      (¬ ∃ name, v.type_name = VariableType.Base name ∧ name ∈ registered_scalars) ∨
      (∃ name, v.type_name = VariableType.Base name ∧
        scalar_parses ex name s = false)) →
      ∃ e, (v.update_value ex core c counter s).1 = Except.error e) ∧
    (∀ e, (v.update_value ex core c counter s).1 = Except.error e →
      (v.update_value ex core c counter s).2.2.1 = c) := by
  constructor
  · intro hcond
    unfold Variable.update_value
    by_cases hguard : update_value_guard v = true
    · rw [if_pos hguard]
      exact ⟨_, rfl⟩
    · rw [if_neg hguard]
      by_cases hstar :
          ((match v.name with | .Named n => n | _ => "").startsWith "*") = true
      · rw [if_pos hstar]
        exact ⟨_, rfl⟩
      · rw [if_neg hstar]
        have herr : ∃ e2, (match v.type_name with
            | .Base name => base_update_dispatch ex v core name s
            | _ => Except.error
                "Unsupported variable type. Only base variables can be updated.") =
            Except.error e2 := by
          rcases hcond with hA | hB | hC | hD | hE | hF
          · exact absurd (by unfold update_value_guard; rw [hA]; rfl) hguard
          · exact absurd (by unfold update_value_guard; rw [hB]; simp) hguard
          · exact absurd (by unfold update_value_guard; rw [hC]; simp) hguard
          · obtain ⟨n, hn, hsw⟩ := hD
            exact absurd (by rw [hn]; exact hsw) hstar
          · cases htn : v.type_name with
            | Base name =>
                have hpf : scalar_parses ex name s = false :=
                  scalar_parses_false_of_unregistered ex name s
                    (fun hm => hE ⟨name, htn, hm⟩)
                obtain ⟨e2, he2⟩ := base_update_dispatch_error ex v core name s hpf
                exact ⟨e2, he2⟩
            | Struct a => exact ⟨_, rfl⟩
            | Enum a => exact ⟨_, rfl⟩
            | Namespace => exact ⟨_, rfl⟩
            | Pointer a => exact ⟨_, rfl⟩
            | Array a b => exact ⟨_, rfl⟩
            | Unnamed => exact ⟨_, rfl⟩
            | Unknown => exact ⟨_, rfl⟩
            | Other a => exact ⟨_, rfl⟩
          · obtain ⟨name, htn, hpf⟩ := hF
            obtain ⟨e2, he2⟩ := base_update_dispatch_error ex v core name s hpf
            refine ⟨e2, ?_⟩
            rw [htn]
            exact he2
        obtain ⟨e2, he2⟩ := herr
        rw [he2]
        exact ⟨_, rfl⟩
  · intro e her
    unfold Variable.update_value at her ⊢
    by_cases hguard : update_value_guard v = true
    · rw [if_pos hguard]
    · rw [if_neg hguard] at her ⊢
      by_cases hstar :
          ((match v.name with | .Named n => n | _ => "").startsWith "*") = true
      · rw [if_pos hstar]
      · rw [if_neg hstar] at her ⊢
        rcases hupd : (match v.type_name with
            | .Base name => base_update_dispatch ex v core name s
            | _ => Except.error
                "Unsupported variable type. Only base variables can be updated.") with
          e2 | m'
        · rw [hupd] at her ⊢
        · rw [hupd] at her ⊢
          replace her : (update_value_commit ex v m' c counter s).1 =
            Except.error e := her
          show (update_value_commit ex v m' c counter s).2.2.1 = c
          unfold update_value_commit at her ⊢
          revert her
          rcases hcv : cache_variable ex c counter v.parent_key
              { v with value := VariableValue.Valid s } m' with ⟨res, c', ctr'⟩
          have hcun : ∀ ec, res = Except.error ec → c' = c := by
            intro ec hec
            have h1 := cache_variable_err_unchanged ex c counter v.parent_key
              { v with value := VariableValue.Valid s } m' hctr ec
              (by rw [hcv, hec])
            rw [hcv] at h1
            exact h1
          cases res with
          | ok rv => intro her; exact Except.noConfusion her
          | error ec => intro _; exact hcun ec rfl

/-- Witness for C7 on a concrete variable with `Unknown` type: the update
fails and the (empty) cache is untouched. -/
theorem update_value_errors_no_commit_witness :
    (∀ e ∈ ([] : Cache), e.1 < (1 : Int)) ∧
    (∃ e, (({} : Variable).update_value trivialOracles mem0 [] 1 "1").1 =
      Except.error e) ∧
    (({} : Variable).update_value trivialOracles mem0 [] 1 "1").2.2.1 = [] := by
  have h := update_value_errors_no_commit trivialOracles {} mem0 [] 1 "1"
    (by intro e he; cases he)
  refine ⟨?_, ?_, ?_⟩
  · intro e he
    cases he
  · exact h.1 (Or.inr (Or.inl rfl))
  · obtain ⟨e, he⟩ := h.1 (Or.inr (Or.inl rfl))
    exact h.2 e he






/-- C2: `remove_cache_entry(1)` on the chain 1 ← 2 ← 3 succeeds but only
removes the entry and its direct child — the grandchild stays cached (with a
now-dangling parent key), contradicting the documented recursive removal:
`remove_cache_entry_children` never recurses. -/
theorem remove_cache_entry_keeps_grandchild :
    CacheWF chainCache ∧
    chainMid.parent_key = some chainRoot.variable_key ∧
    chainLeaf.parent_key = some chainMid.variable_key ∧
    remove_cache_entry chainCache 1 = (Except.ok (), [(3, chainLeaf)]) ∧
    contains_key [((3 : Int), chainLeaf)] 2 = false := by
  decide





/-- C1: a sequence of four public operations starting from the empty cache —
three successful `cache_variable` inserts building the chain 1 ← 2 ← 3
followed by a successful `remove_cache_entry(1)` — leaves a cached variable
whose `parent_key` (2) is no longer a key of any cached variable: parent-key
integrity is not an invariant of the public operations. -/
theorem parent_integrity_broken_by_public_ops :
    traceStep1.1 = Except.ok { variable_key := 1 } ∧
    traceStep2.1 = Except.ok { variable_key := 2, parent_key := some 1 } ∧
    traceStep3.1 = Except.ok { variable_key := 3, parent_key := some 2 } ∧
    traceFinal.1 = Except.ok () ∧
    traceFinal.2 = [(3, { variable_key := 3, parent_key := some 2 })] ∧
    contains_key traceFinal.2 2 = false := by
  decide

/-- The `match` on the collected list's length inside
`get_variable_by_name_and_parent` always yields the last element. -/
theorem match_len_eq_getLast (l : List Variable) :
    (match l.length with
     | 0 => none
     | 1 => l.head?
     | _ => l.getLast?) = l.getLast? := by
  match l with
  | [] => rfl
  | [a] => rfl
  | a :: b :: t => rfl

/-- Keys strictly ascending along a list bound every key by the last one. -/
theorem key_le_of_getLast (l : List Variable)
    (hp : l.Pairwise (fun a b => a.variable_key < b.variable_key)) (r : Variable)
    (hr : l.getLast? = some r) : ∀ v ∈ l, v.variable_key ≤ r.variable_key := by
  induction l with
  | nil => simp at hr
  | cons a rest ih =>
      match rest with
      | [] =>
          simp at hr
          intro v hv
          simp at hv
          simp [hv, hr]
      | b :: t =>
          rw [List.getLast?_cons_cons] at hr
          intro v hv
          rcases List.mem_cons.mp hv with rfl | hv'
          · have hrmem : r ∈ b :: t := List.mem_of_mem_getLast? hr
            have := List.rel_of_pairwise_cons hp hrmem
            omega
          · exact ih (List.Pairwise.sublist (List.sublist_cons_self a (b :: t)) hp)
              hr v hv'




/-- C3 counterexample: on a well-formed cache whose iteration order lists the
larger key first, `get_variable_by_name_and_parent` returns the match with
the *smaller* key, not the one with the largest key. -/
theorem get_by_name_and_parent_counterexample :
    CacheWF dupCache ∧
    dupFirst ∈ cacheValues dupCache ∧ dupSecond ∈ cacheValues dupCache ∧
    dupFirst.name = VariableName.Named "x" ∧
    dupSecond.name = VariableName.Named "x" ∧
    dupFirst.parent_key = none ∧ dupSecond.parent_key = none ∧
    dupFirst ≠ dupSecond ∧
    get_variable_by_name_and_parent dupCache (VariableName.Named "x") none =
      some dupFirst ∧
    dupFirst.variable_key < dupSecond.variable_key := by
  decide

/-- C3 amended: `get_variable_by_name_and_parent` returns the last matching
variable in the cache's iteration order (`none` with no match, the single
match with one); only when the iteration order happens to be ascending by
key is that returned match the one with the largest key. -/
theorem get_by_name_and_parent_last_in_order (c : Cache) (n : VariableName)
    (p : Option Int) (hwf : CacheWF c)
    (hord : (c.map Prod.fst).Pairwise (fun a b => a < b)) :
    (get_variable_by_name_and_parent c n p =
      ((cacheValues c).filter
        (fun v => v.name == n && v.parent_key == p)).getLast?) ∧
    (∀ r, get_variable_by_name_and_parent c n p = some r →
      ∀ v ∈ cacheValues c, v.name = n → v.parent_key = p →
        v.variable_key ≤ r.variable_key) := by
  have heq : get_variable_by_name_and_parent c n p =
      ((cacheValues c).filter
        (fun v => v.name == n && v.parent_key == p)).getLast? := by
    unfold get_variable_by_name_and_parent
    exact match_len_eq_getLast _
  refine ⟨heq, ?_⟩
  intro r hr v hv hname hparent
  have hcp : c.Pairwise (fun e e' : Int × Variable => e.1 < e'.1) :=
    List.pairwise_map.mp hord
  have hvp : c.Pairwise
      (fun e e' : Int × Variable => e.2.variable_key < e'.2.variable_key) := by
    refine hcp.imp_of_mem ?_
    intro a b ha hb hab
    rw [hwf.2 a ha, hwf.2 b hb]
    exact hab
  have hvals : (cacheValues c).Pairwise
      (fun a b : Variable => a.variable_key < b.variable_key) := by
    unfold cacheValues
    exact List.pairwise_map.mpr hvp
  rw [heq] at hr
  refine key_le_of_getLast _ ?_ r hr v ?_
  · exact List.Pairwise.sublist (List.filter_sublist _) hvals
  · refine List.mem_filter.mpr ⟨hv, ?_⟩
    simp [hname, hparent]

/-- Witness for the C3 amended theorem on a concrete ascending-order cache
with two same-named roots: the larger key is returned. -/
theorem get_by_name_and_parent_last_in_order_witness :
    CacheWF [((1 : Int), dupFirst), (2, dupSecond)] ∧
    (([((1 : Int), dupFirst), (2, dupSecond)].map Prod.fst).Pairwise
      (fun a b => a < b)) ∧
    get_variable_by_name_and_parent [((1 : Int), dupFirst), (2, dupSecond)]
        (VariableName.Named "x") none =
      ((cacheValues [((1 : Int), dupFirst), (2, dupSecond)]).filter
        (fun v => v.name == VariableName.Named "x" && v.parent_key == none)).getLast? :=
  ⟨by decide, by decide,
    (get_by_name_and_parent_last_in_order [((1 : Int), dupFirst), (2, dupSecond)]
      (VariableName.Named "x") none (by decide) (by decide)).1⟩

/-- C5: `get_children` returns exactly the cached variables whose
`parent_key` equals the argument (as a permutation of the filtered values),
sorted ascending by key — strictly ascending on a well-formed cache. -/
theorem get_children_sorted (c : Cache) (p : Option Int) (hwf : CacheWF c) :
    ∃ l, get_children c p = Except.ok l ∧
      l.Perm ((cacheValues c).filter (fun v => v.parent_key == p)) ∧
      (∀ v, v ∈ l ↔ v ∈ cacheValues c ∧ v.parent_key = p) ∧
      l.Pairwise (fun a b => a.variable_key < b.variable_key) := by
  refine ⟨((cacheValues c).filter (fun v : Variable => v.parent_key == p)).mergeSort
    (fun a b : Variable => decide (a.variable_key ≤ b.variable_key)), rfl,
    List.mergeSort_perm _ _, ?_, ?_⟩
  · intro v
    rw [List.mem_mergeSort, List.mem_filter]
    simp
  · have hle : (((cacheValues c).filter (fun v => v.parent_key == p)).mergeSort
        (fun a b => decide (a.variable_key ≤ b.variable_key))).Pairwise
        (fun a b : Variable => a.variable_key ≤ b.variable_key) := by
      have := @List.sorted_mergeSort Variable
        (fun a b : Variable => decide (a.variable_key ≤ b.variable_key))
        (fun a b d h1 h2 => by simp at h1 h2 ⊢; omega)
        (fun a b => by simp; omega)
        ((cacheValues c).filter (fun v => v.parent_key == p))
      exact this.imp (fun h => by simpa using h)
    have hkeysc : c.map (fun e => (Prod.snd e).variable_key) = c.map Prod.fst :=
      List.map_congr_left (fun e he => hwf.2 e he)
    have hnodupvals : ((cacheValues c).map (fun v => v.variable_key)).Nodup := by
      unfold cacheValues
      rw [List.map_map]
      have : (fun v : Variable => v.variable_key) ∘ Prod.snd =
          fun e : Int × Variable => (Prod.snd e).variable_key := rfl
      rw [this, hkeysc]
      exact hwf.1
    have hnodupfilt : (((cacheValues c).filter
        (fun v => v.parent_key == p)).map (fun v => v.variable_key)).Nodup :=
      List.Nodup.sublist
        (List.Sublist.map _ (List.filter_sublist _)) hnodupvals
    have hnodupsorted : ((((cacheValues c).filter (fun v => v.parent_key == p)).mergeSort
        (fun a b => decide (a.variable_key ≤ b.variable_key))).map
          (fun v => v.variable_key)).Nodup :=
      (List.Perm.nodup_iff
        ((List.mergeSort_perm _ _).map (fun v : Variable => v.variable_key))).mpr hnodupfilt
    have hne := List.pairwise_map.mp hnodupsorted
    exact (hle.and hne).imp (fun h => lt_of_le_of_ne h.1 h.2)

/-! ## Byte-level and textual round-trip lemmas for the scalar codec -/

/-- Writing at addresses `≥ a` leaves earlier addresses untouched. -/
theorem writeBytes_eq_of_lt (l : List Nat) :
    ∀ (m : Mem) (a x : Nat), x < a → writeBytes m a l x = m x := by
  induction l with
  | nil => intro m a x _; rfl
  | cons b bs ih =>
      intro m a x hx
      show writeBytes (writeByte m a b) (a + 1) bs x = m x
      rw [ih (writeByte m a b) (a + 1) x (by omega)]
      unfold writeByte
      rw [if_neg (by omega)]

/-- Here `leBytes` produces exactly `w` bytes. -/
theorem length_leBytes (w : Nat) : ∀ v, (leBytes w v).length = w := by
  induction w with
  | zero => intro v; rfl
  | succ w ih => intro v; show (leBytes w (v / 256)).length + 1 = w + 1; rw [ih]

/-- Every `leBytes` byte is below 256. -/
theorem leBytes_lt (w : Nat) : ∀ v, ∀ b ∈ leBytes w v, b < 256 := by
  induction w with
  | zero => intro v b hb; simp [leBytes] at hb
  | succ w ih =>
      intro v b hb
      rcases List.mem_cons.mp hb with rfl | hb'
      · omega
      · exact ih (v / 256) b hb'

/-- Reading back a prefix of freshly written bytes returns those bytes. -/
theorem readBytes_writeBytes (l : List Nat) (hl : ∀ b ∈ l, b < 256) :
    ∀ (m : Mem) (a k : Nat), k ≤ l.length →
      readBytes (writeBytes m a l) a k = l.take k := by
  induction l with
  | nil =>
      intro m a k hk
      have hk0 : k = 0 := by simpa using hk
      subst hk0
      rfl
  | cons b bs ih =>
      intro m a k hk
      match k with
      | 0 => rfl
      | k + 1 =>
          show readByte (writeBytes (writeByte m a b) (a + 1) bs) a ::
              readBytes (writeBytes (writeByte m a b) (a + 1) bs) (a + 1) k =
            b :: bs.take k
          congr 1
          · unfold readByte
            rw [writeBytes_eq_of_lt bs _ (a + 1) a (by omega)]
            unfold writeByte
            rw [if_pos rfl]
            have : b < 256 := hl b (by simp)
            omega
          · exact ih (fun x hx => hl x (by simp [hx])) (writeByte m a b) (a + 1) k
              (by simpa using hk)

/-- Decoding the little-endian image recovers the value modulo `256 ^ w`. -/
theorem fromLeBytes_leBytes (w : Nat) : ∀ v, fromLeBytes (leBytes w v) = v % 256 ^ w := by
  induction w with
  | zero => intro v; simp [leBytes, fromLeBytes]; omega
  | succ w ih =>
      intro v
      show v % 256 % 256 + 256 * fromLeBytes (leBytes w (v / 256)) = v % 256 ^ (w + 1)
      rw [ih (v / 256)]
      have hp : (256 : Nat) ^ (w + 1) = 256 * 256 ^ w := by
        rw [pow_succ, Nat.mul_comm]
      rw [hp, Nat.mod_mul]
      omega

/-- A prefix of a little-endian image is the image at the smaller width. -/
theorem take_leBytes (k : Nat) : ∀ (w : Nat) v, k ≤ w →
    (leBytes w v).take k = leBytes k v := by
  induction k with
  | zero => intro w v _; rfl
  | succ k ih =>
      intro w v hw
      match w with
      | w + 1 =>
          show v % 256 :: (leBytes w (v / 256)).take k = v % 256 :: leBytes k (v / 256)
          rw [ih w (v / 256) (by omega)]

/-- One digit character per decimal digit. -/
theorem toNat_digitChar (d : Nat) (h : d < 10) : (digitChar d).toNat = 48 + d := by
  unfold digitChar Char.ofNat
  rw [dif_pos (Or.inl (by omega))]
  rfl

/-- Here `charDigit` inverts `digitChar` on decimal digits. -/
theorem charDigit_digitChar (d : Nat) (h : d < 10) :
    charDigit (digitChar d) = some d := by
  unfold charDigit
  rw [toNat_digitChar d h, if_pos (by omega)]
  congr 1
  omega

/-- Here `digitsOfChars` inverts mapping `digitChar` over decimal digits. -/
theorem digitsOfChars_map (ds : List Nat) (h : ∀ d ∈ ds, d < 10) :
    digitsOfChars (ds.map digitChar) = some ds := by
  induction ds with
  | nil => rfl
  | cons d t ih =>
      show (match charDigit (digitChar d), digitsOfChars (t.map digitChar) with
        | some d, some ds => some (d :: ds)
        | _, _ => none) = some (d :: t)
      rw [charDigit_digitChar d (h d (by simp)), ih (fun x hx => h x (by simp [hx]))]

/-- Folding most-significant-first digits computes `Nat.ofDigits` of the
little-endian digit list. -/
theorem foldl_reverse_ofDigits (L : List Nat) :
    L.reverse.foldl (fun a d => a * 10 + d) 0 = Nat.ofDigits 10 L := by
  induction L with
  | nil => rfl
  | cons d t ih =>
      rw [List.reverse_cons, List.foldl_append, ih, Nat.ofDigits_cons]
      simp
      ring

/-- The decimal rendering of a natural is a nonempty digit-character string
that folds back to the value. -/
theorem natText_digits (n : Nat) :
    ∃ ds, (∀ d ∈ ds, d < 10) ∧ ds ≠ [] ∧ (natToText n).data = ds.map digitChar ∧
      ds.foldl (fun a d => a * 10 + d) 0 = n := by
  by_cases hn : n = 0
  · subst hn
    exact ⟨[0], by simp, by simp, by decide, rfl⟩
  · refine ⟨(Nat.digits 10 n).reverse, ?_, ?_, ?_, ?_⟩
    · intro d hd
      exact Nat.digits_lt_base (by omega) (List.mem_reverse.mp hd)
    · simp [Nat.digits_ne_nil_iff_ne_zero.mpr hn]
    · simp [natToText, hn, List.map_reverse]
    · rw [foldl_reverse_ofDigits, Nat.ofDigits_digits]

/-- Parsing the digit characters of a decimal rendering recovers the
value. -/
theorem natFromChars_text (n : Nat) :
    natFromChars (natToText n).data = some n := by
  obtain ⟨ds, hlt, hne, hdata, hfold⟩ := natText_digits n
  rw [hdata]
  unfold natFromChars
  rw [if_neg (by simp [hne]), digitsOfChars_map ds hlt]
  simp [hfold]

/-- A digit character is not a sign character. -/
theorem digitChar_ne_sign (d : Nat) (h : d < 10) :
    digitChar d ≠ '+' ∧ digitChar d ≠ '-' := by
  constructor <;> intro hc <;>
    [have h43 := congrArg Char.toNat hc; have h45 := congrArg Char.toNat hc] <;>
    rw [toNat_digitChar d h] at * <;> simp_all <;> omega

/-- Here `u*::from_str` inverts `u*::to_string`. -/
theorem natFromStr_text (n : Nat) : natFromStr (natToText n) = some n := by
  obtain ⟨ds, hlt, hne, hdata, hfold⟩ := natText_digits n
  rcases ds with _ | ⟨d, t⟩
  · exact absurd rfl hne
  · unfold natFromStr
    have hd10 : d < 10 := hlt d (by simp)
    simp only [hdata, List.map_cons]
    rw [if_neg (digitChar_ne_sign d hd10).1]
    have := natFromChars_text n
    rw [hdata] at this
    simpa using this

/-- Here `i*::from_str` inverts `i*::to_string`. -/
theorem intFromStr_text (x : Int) : intFromStr (intToText x) = some x := by
  rcases lt_or_le x 0 with hx | hx
  · have hdata : (intToText x).data = '-' :: (natToText x.natAbs).data := by
      unfold intToText
      rw [if_pos hx, String.data_append]
      rfl
    unfold intFromStr
    simp only [hdata]
    rw [natFromChars_text x.natAbs]
    show some (-(x.natAbs : Int)) = some x
    congr 1
    omega
  · have htext : intToText x = natToText x.toNat := by
      unfold intToText
      rw [if_neg (by omega)]
    rw [htext]
    obtain ⟨ds, hlt, hne, hdata, hfold⟩ := natText_digits x.toNat
    rcases ds with _ | ⟨d, t⟩
    · exact absurd rfl hne
    · have hd10 : d < 10 := hlt d (by simp)
      unfold intFromStr
      simp only [hdata, List.map_cons]
      rw [if_neg (digitChar_ne_sign d hd10).2, if_neg (digitChar_ne_sign d hd10).1]
      have := natFromChars_text x.toNat
      rw [hdata] at this
      simp only [List.map_cons] at this
      rw [this]
      simp
      omega

/-- Range-checked unsigned parse inverts rendering for in-range values. -/
theorem unsignedFromStr_text (w v : Nat) (h : v < 2 ^ w) :
    unsignedFromStr w (natToText v) = some v := by
  unfold unsignedFromStr
  rw [natFromStr_text]
  simp [h]

/-- Range-checked signed parse inverts rendering for in-range values. -/
theorem signedFromStr_text (w : Nat) (x : Int) (h1 : -(2 ^ (w - 1) : Nat) ≤ x)
    (h2 : x < (2 ^ (w - 1) : Nat)) :
    signedFromStr w (intToText x) = some x := by
  unfold signedFromStr
  rw [intFromStr_text, Option.some_bind, if_pos ⟨h1, h2⟩]

/-- Full-width memory round-trip: write `w` little-endian bytes, read them
back. -/
theorem mem_roundtrip (w : Nat) (m : Mem) (a v : Nat) :
    fromLeBytes (readBytes (writeBytes m a (leBytes w v)) a w) = v % 256 ^ w := by
  rw [readBytes_writeBytes (leBytes w v) (leBytes_lt w v) m a w
    (by rw [length_leBytes])]
  rw [List.take_of_length_le (by rw [length_leBytes]), fromLeBytes_leBytes]

/-- Reading a 32-bit word out of a host-width (eight byte) write recovers the
value modulo `2 ^ 32` (the `usize`/`isize` situation). -/
theorem mem_roundtrip_read4 (m : Mem) (a v : Nat) :
    fromLeBytes (readBytes (writeBytes m a (leBytes 8 v)) a 4) = v % 256 ^ 4 := by
  rw [readBytes_writeBytes (leBytes 8 v) (leBytes_lt 8 v) m a 4
    (by rw [length_leBytes]; omega)]
  rw [take_leBytes 4 8 v (by omega), fromLeBytes_leBytes]

/-- Single-byte memory round-trip (the `write_word_8` cases). -/
theorem mem_roundtrip_one (m : Mem) (a v : Nat) :
    fromLeBytes (readBytes (writeByte m a v) a 1) = v % 256 := by
  have h : writeByte m a v = writeBytes m a (leBytes 1 v) := by
    show writeByte m a v = writeByte m a (v % 256)
    unfold writeByte
    funext x
    by_cases hx : x = a
    · rw [if_pos hx, if_pos hx]
      omega
    · rw [if_neg hx, if_neg hx]
  rw [h, mem_roundtrip 1 m a v]
  norm_num

/-- Here `char::from_u32` on a `char`'s code point gives the `char` back. -/
theorem charFromU32_toNat (c : Char) : charFromU32 c.toNat = c := by
  have hv : c.toNat.isValidChar := c.valid
  unfold charFromU32
  rw [dif_pos hv]
  have h := Char.ofNat_toNat c
  unfold Char.ofNat at h
  rw [dif_pos hv] at h
  exact h

/-- A code point is below `2 ^ 32` (indeed below `0x110000`). -/
theorem char_toNat_lt (c : Char) : c.toNat < 1114112 := by
  have hv : c.toNat.isValidChar := c.valid
  rcases hv with h | ⟨_, h⟩ <;> omega


/-- C6 (amended): for every non-float scalar type registered in the codec
registry and every representable value — `isize`/`usize` restricted to values
representable in 32 bits, because their decoder reads a 32-bit target word
while their encoder writes the host-width bytes — encoding the value's
textual form to target memory and decoding the type from the same address
yields the value again. -/
theorem scalar_codec_roundtrip (m : Mem) (a : Nat) :
    (∀ b : Bool, ∃ m',
      bool_update_value (atAddr a) m (if b then "true" else "false") = Except.ok m' ∧
      bool_get_value (atAddr a) m' = Except.ok b) ∧
    (∀ ch : Char, ∃ m',
      char_update_value (atAddr a) m (String.singleton ch) = Except.ok m' ∧
      char_get_value (atAddr a) m' = Except.ok ch) ∧
    (∀ x : Int, -(2 ^ 7) ≤ x → x < 2 ^ 7 → ∃ m',
      i8_update_value (atAddr a) m (intToText x) = Except.ok m' ∧
      i8_get_value (atAddr a) m' = Except.ok x) ∧
    (∀ x : Int, -(2 ^ 15) ≤ x → x < 2 ^ 15 → ∃ m',
      i16_update_value (atAddr a) m (intToText x) = Except.ok m' ∧
      i16_get_value (atAddr a) m' = Except.ok x) ∧
    (∀ x : Int, -(2 ^ 31) ≤ x → x < 2 ^ 31 → ∃ m',
      i32_update_value (atAddr a) m (intToText x) = Except.ok m' ∧
      i32_get_value (atAddr a) m' = Except.ok x) ∧
    (∀ x : Int, -(2 ^ 63) ≤ x → x < 2 ^ 63 → ∃ m',
      i64_update_value (atAddr a) m (intToText x) = Except.ok m' ∧
      i64_get_value (atAddr a) m' = Except.ok x) ∧
    (∀ x : Int, -(2 ^ 127) ≤ x → x < 2 ^ 127 → ∃ m',
      i128_update_value (atAddr a) m (intToText x) = Except.ok m' ∧
      i128_get_value (atAddr a) m' = Except.ok x) ∧
    (∀ x : Int, -(2 ^ 31) ≤ x → x < 2 ^ 31 → ∃ m',
      isize_update_value (atAddr a) m (intToText x) = Except.ok m' ∧
      isize_get_value (atAddr a) m' = Except.ok x) ∧
    (∀ v : Nat, v < 2 ^ 8 → ∃ m',
      u8_update_value (atAddr a) m (natToText v) = Except.ok m' ∧
      u8_get_value (atAddr a) m' = Except.ok v) ∧
    (∀ v : Nat, v < 2 ^ 16 → ∃ m',
      u16_update_value (atAddr a) m (natToText v) = Except.ok m' ∧
      u16_get_value (atAddr a) m' = Except.ok v) ∧
    (∀ v : Nat, v < 2 ^ 32 → ∃ m',
      u32_update_value (atAddr a) m (natToText v) = Except.ok m' ∧
      u32_get_value (atAddr a) m' = Except.ok v) ∧
    (∀ v : Nat, v < 2 ^ 64 → ∃ m',
      u64_update_value (atAddr a) m (natToText v) = Except.ok m' ∧
      u64_get_value (atAddr a) m' = Except.ok v) ∧
    (∀ v : Nat, v < 2 ^ 128 → ∃ m',
      u128_update_value (atAddr a) m (natToText v) = Except.ok m' ∧
      u128_get_value (atAddr a) m' = Except.ok v) ∧
    (∀ v : Nat, v < 2 ^ 32 → ∃ m',
      usize_update_value (atAddr a) m (natToText v) = Except.ok m' ∧
      usize_get_value (atAddr a) m' = Except.ok v) := by
  refine ⟨?_, ?_, ?_, ?_, ?_, ?_, ?_, ?_, ?_, ?_, ?_, ?_, ?_, ?_⟩
  · intro b
    refine ⟨writeByte m a (if b then 1 else 0), ?_, ?_⟩
    · cases b <;> rfl
    · show Except.ok (decide (readByte (writeByte m a (if b then 1 else 0)) a ≠ 0)) =
        Except.ok b
      cases b <;> simp [readByte, writeByte]
  · intro ch
    refine ⟨writeBytes m a (leBytes 4 ch.toNat), rfl, ?_⟩
    show Except.ok (charFromU32
      (fromLeBytes (readBytes (writeBytes m a (leBytes 4 ch.toNat)) a 4))) =
      Except.ok ch
    rw [mem_roundtrip 4 m a ch.toNat]
    have hlt := char_toNat_lt ch
    rw [Nat.mod_eq_of_lt (by omega), charFromU32_toNat]
  · intro x h1 h2
    refine ⟨writeByte m a (toTwos 8 x), ?_, ?_⟩
    · unfold i8_update_value
      rw [signedFromStr_text 8 x (by push_cast; omega) (by push_cast; omega)]
      rfl
    · show Except.ok (fromTwos 8
        (fromLeBytes (readBytes (writeByte m a (toTwos 8 x)) a 1))) = Except.ok x
      rw [mem_roundtrip_one m a (toTwos 8 x)]
      congr 1
      unfold fromTwos toTwos
      split <;> omega
  · intro x h1 h2
    refine ⟨writeBytes m a (leBytes 2 (toTwos 16 x)), ?_, ?_⟩
    · unfold i16_update_value
      rw [signedFromStr_text 16 x (by push_cast; omega) (by push_cast; omega)]
      rfl
    · show Except.ok (fromTwos 16
        (fromLeBytes (readBytes (writeBytes m a (leBytes 2 (toTwos 16 x))) a 2))) =
        Except.ok x
      rw [mem_roundtrip 2 m a (toTwos 16 x)]
      congr 1
      unfold fromTwos toTwos
      split <;> omega
  · intro x h1 h2
    refine ⟨writeBytes m a (leBytes 4 (toTwos 32 x)), ?_, ?_⟩
    · unfold i32_update_value
      rw [signedFromStr_text 32 x (by push_cast; omega) (by push_cast; omega)]
      rfl
    · show Except.ok (fromTwos 32
        (fromLeBytes (readBytes (writeBytes m a (leBytes 4 (toTwos 32 x))) a 4))) =
        Except.ok x
      rw [mem_roundtrip 4 m a (toTwos 32 x)]
      congr 1
      unfold fromTwos toTwos
      split <;> omega
  · intro x h1 h2
    refine ⟨writeBytes m a (leBytes 8 (toTwos 64 x)), ?_, ?_⟩
    · unfold i64_update_value
      rw [signedFromStr_text 64 x (by push_cast; omega) (by push_cast; omega)]
      rfl
    · show Except.ok (fromTwos 64
        (fromLeBytes (readBytes (writeBytes m a (leBytes 8 (toTwos 64 x))) a 8))) =
        Except.ok x
      rw [mem_roundtrip 8 m a (toTwos 64 x)]
      congr 1
      unfold fromTwos toTwos
      split <;> omega
  · intro x h1 h2
    refine ⟨writeBytes m a (leBytes 16 (toTwos 128 x)), ?_, ?_⟩
    · unfold i128_update_value
      rw [signedFromStr_text 128 x (by push_cast; omega) (by push_cast; omega)]
      rfl
    · show Except.ok (fromTwos 128
        (fromLeBytes (readBytes (writeBytes m a (leBytes 16 (toTwos 128 x))) a 16))) =
        Except.ok x
      rw [mem_roundtrip 16 m a (toTwos 128 x)]
      congr 1
      unfold fromTwos toTwos
      split <;> omega
  · intro x h1 h2
    refine ⟨writeBytes m a (leBytes 8 (toTwos 64 x)), ?_, ?_⟩
    · unfold isize_update_value
      rw [signedFromStr_text 64 x (by push_cast; omega) (by push_cast; omega)]
      rfl
    · show Except.ok (fromTwos 32
        (fromLeBytes (readBytes (writeBytes m a (leBytes 8 (toTwos 64 x))) a 4))) =
        Except.ok x
      rw [mem_roundtrip_read4 m a (toTwos 64 x)]
      congr 1
      unfold fromTwos toTwos
      split <;> omega
  · intro v hv
    refine ⟨writeByte m a v, ?_, ?_⟩
    · unfold u8_update_value
      rw [unsignedFromStr_text 8 v hv]
      rfl
    · show Except.ok (fromLeBytes (readBytes (writeByte m a v) a 1)) = Except.ok v
      rw [mem_roundtrip_one m a v]
      congr 1
      omega
  · intro v hv
    refine ⟨writeBytes m a (leBytes 2 v), ?_, ?_⟩
    · unfold u16_update_value
      rw [unsignedFromStr_text 16 v hv]
      rfl
    · show Except.ok (fromLeBytes (readBytes (writeBytes m a (leBytes 2 v)) a 2)) =
        Except.ok v
      rw [mem_roundtrip 2 m a v]
      congr 1
      omega
  · intro v hv
    refine ⟨writeBytes m a (leBytes 4 v), ?_, ?_⟩
    · unfold u32_update_value
      rw [unsignedFromStr_text 32 v hv]
      rfl
    · show Except.ok (fromLeBytes (readBytes (writeBytes m a (leBytes 4 v)) a 4)) =
        Except.ok v
      rw [mem_roundtrip 4 m a v]
      congr 1
      omega
  · intro v hv
    refine ⟨writeBytes m a (leBytes 8 v), ?_, ?_⟩
    · unfold u64_update_value
      rw [unsignedFromStr_text 64 v hv]
      rfl
    · show Except.ok (fromLeBytes (readBytes (writeBytes m a (leBytes 8 v)) a 8)) =
        Except.ok v
      rw [mem_roundtrip 8 m a v]
      congr 1
      omega
  · intro v hv
    refine ⟨writeBytes m a (leBytes 16 v), ?_, ?_⟩
    · unfold u128_update_value
      rw [unsignedFromStr_text 128 v hv]
      rfl
    · show Except.ok (fromLeBytes (readBytes (writeBytes m a (leBytes 16 v)) a 16)) =
        Except.ok v
      rw [mem_roundtrip 16 m a v]
      congr 1
      omega
  · intro v hv
    refine ⟨writeBytes m a (leBytes 8 v), ?_, ?_⟩
    · unfold usize_update_value
      rw [unsignedFromStr_text 64 v (by omega)]
      rfl
    · show Except.ok (fromLeBytes (readBytes (writeBytes m a (leBytes 8 v)) a 4)) =
        Except.ok v
      rw [mem_roundtrip_read4 m a v]
      congr 1
      omega

/-- Witness for C6 at concrete inputs: a `u32` round-trip at value 42 and a
32-bit-representable `usize` round-trip, applying the round-trip theorem. -/
theorem scalar_codec_roundtrip_witness :
    ((42 : Nat) < 2 ^ 32 ∧ ∃ m',
      u32_update_value (atAddr 0) mem0 (natToText 42) = Except.ok m' ∧
      u32_get_value (atAddr 0) m' = Except.ok 42) ∧
    ((7 : Nat) < 2 ^ 32 ∧ ∃ m',
      usize_update_value (atAddr 0) mem0 (natToText 7) = Except.ok m' ∧
      usize_get_value (atAddr 0) m' = Except.ok 7) :=
  ⟨⟨by norm_num, (scalar_codec_roundtrip mem0 0).2.2.2.2.2.2.2.2.2.2.1 42 (by norm_num)⟩,
   ⟨by norm_num, (scalar_codec_roundtrip mem0 0).2.2.2.2.2.2.2.2.2.2.2.2.2 7 (by norm_num)⟩⟩

/-- Here `usize::update_value` succeeds for every host-representable value,
writing the host-width little-endian image. -/
theorem usize_update_ok (m : Mem) (a v : Nat) (h : v < 2 ^ 64) :
    usize_update_value (atAddr a) m (natToText v) =
      Except.ok (writeBytes m a (leBytes 8 v)) := by
  unfold usize_update_value
  rw [unsignedFromStr_text 64 v h]
  rfl

/-- C6 counterexample: `usize` is parsed and encoded at the (64-bit) host
width but decoded from a 32-bit target word, so the representable host value
`2 ^ 32` encodes successfully and decodes to `0`. -/
theorem usize_codec_counterexample :
    ∃ m', usize_update_value (atAddr 0) mem0 (natToText 4294967296) = Except.ok m' ∧
      usize_get_value (atAddr 0) m' = Except.ok 0 ∧ (0 : Nat) ≠ 4294967296 := by
  refine ⟨writeBytes mem0 0 (leBytes 8 4294967296), ?_, ?_, by omega⟩
  · exact usize_update_ok mem0 0 4294967296 (by norm_num)
  · show Except.ok (fromLeBytes
      (readBytes (writeBytes mem0 0 (leBytes 8 4294967296)) 0 4)) = Except.ok 0
    rw [mem_roundtrip_read4 mem0 0 4294967296]
    norm_num

/-- A map that fixes every entry's key leaves `contains_key` unchanged. -/
theorem contains_key_map_fst (c : Cache) (f : Int × Variable → Int × Variable)
    (hf : ∀ e, (f e).1 = e.1) (k : Int) :
    contains_key (c.map f) k = contains_key c k := by
  unfold contains_key
  rw [List.any_map]
  congr 1
  funext e
  simp [Function.comp, hf]

/-- A map that fixes every entry's key commutes with `hm_remove`. -/
theorem hm_remove_map_fst (c : Cache) (f : Int × Variable → Int × Variable)
    (hf : ∀ e, (f e).1 = e.1) (k : Int) :
    hm_remove (c.map f) k = (hm_remove c k).map f := by
  unfold hm_remove
  rw [List.filter_map]
  exact congrArg (List.map f)
    (List.filter_congr (fun e _ => by simp [Function.comp, hf]))

/-- A present key makes `contains_key` true. -/
theorem contains_key_of_hm_get (c : Cache) (k : Int) (v : Variable)
    (h : hm_get c k = some v) : contains_key c k = true := by
  unfold hm_get at h
  unfold contains_key
  rcases Option.map_eq_some'.mp h with ⟨e, he, _⟩
  rcases List.find?_eq_some.mp he with ⟨hpe, as, bs, rfl, _⟩
  exact List.any_eq_true.mpr ⟨e, by simp, hpe⟩

/-- Removing the children of a key that no cached variable has as parent is a
no-op. -/
theorem remove_cache_entry_children_of_none (c : Cache) (k : Int)
    (h : ∀ v ∈ cacheValues c, v.parent_key ≠ some k) :
    remove_cache_entry_children c k = (Except.ok (), c) := by
  unfold remove_cache_entry_children
  have : (cacheValues c).filter (fun v => v.parent_key == some k) = [] :=
    List.filter_eq_nil_iff.mpr (fun v hv => by simp [h v hv])
  rw [this]
  rfl

/-- Here `reassignParent` keeps every entry's key. -/
theorem reassignParent_fst (pk obsk : Int) (e : Int × Variable) :
    (reassignParent pk obsk e).1 = e.1 := by
  unfold reassignParent
  by_cases hc : e.2.parent_key = some obsk <;> simp [hc]

/-- C8: when the obsolete child is cached and is not a typed `DoNotRecurse`
node, `adopt_grand_children` removes exactly the obsolete child's entry and
redirects the `parent_key` of every variable that pointed at it to the new
parent, leaving every other entry untouched; for a typed `DoNotRecurse`
child the cache is returned entirely unchanged. -/
theorem adopt_grand_children_spec (c : Cache) (p obs : Variable)
    (hobs : hm_get c obs.variable_key = some obs)
    (hp : contains_key c p.variable_key = true)
    (hne : p.variable_key ≠ obs.variable_key) :
    (obs.type_name = VariableType.Unknown ∨
        obs.variable_node_type ≠ VariableNodeType.DoNotRecurse →
      adopt_grand_children c p obs =
        (Except.ok (),
          (c.filter (fun e => e.1 != obs.variable_key)).map
            (reassignParent p.variable_key obs.variable_key))) ∧
    (obs.type_name ≠ VariableType.Unknown ∧
        obs.variable_node_type = VariableNodeType.DoNotRecurse →
      adopt_grand_children c p obs = (Except.ok (), c)) := by
  constructor
  · intro hguard
    have hguardb : (obs.type_name == VariableType.Unknown
        || obs.variable_node_type != VariableNodeType.DoNotRecurse) = true := by
      rcases hguard with h | h <;> simp [h]
    have hnochild : ∀ v ∈ cacheValues
        (c.map (reassignParent p.variable_key obs.variable_key)),
        v.parent_key ≠ some obs.variable_key := by
      intro v hv
      rcases List.mem_map.mp hv with ⟨e, he, rfl⟩
      rcases List.mem_map.mp he with ⟨e', _, rfl⟩
      unfold reassignParent
      by_cases hc : e'.2.parent_key = some obs.variable_key
      · simp [hc]
        intro hfalse
        exact hne hfalse
      · simp [hc]
    have hcont : contains_key
        (c.map (reassignParent p.variable_key obs.variable_key))
        obs.variable_key = true := by
      rw [contains_key_map_fst c _ (reassignParent_fst p.variable_key obs.variable_key)]
      exact contains_key_of_hm_get c _ obs hobs
    have hrm : remove_cache_entry
        (c.map (reassignParent p.variable_key obs.variable_key))
        obs.variable_key =
        (Except.ok (), hm_remove
          (c.map (reassignParent p.variable_key obs.variable_key))
          obs.variable_key) := by
      unfold remove_cache_entry
      rw [remove_cache_entry_children_of_none _ _ hnochild]
      simp [hcont]
    unfold adopt_grand_children
    rw [hguardb]
    simp only [if_pos]
    rw [hrm, hm_remove_map_fst c _ (reassignParent_fst p.variable_key obs.variable_key)]
    unfold hm_remove
    rfl
  · rintro ⟨h1, h2⟩
    have hguardb : (obs.type_name == VariableType.Unknown
        || obs.variable_node_type != VariableNodeType.DoNotRecurse) = false := by
      simp [h1, h2]
    unfold adopt_grand_children
    rw [hguardb]
    rfl





/-- Witness for C8: collapsing the `Unknown`-typed intermediate node removes
it and re-parents the grandchild onto the new parent. -/
theorem adopt_grand_children_spec_witness :
    hm_get adoptCache adoptI.variable_key = some adoptI ∧
    contains_key adoptCache adoptP.variable_key = true ∧
    adoptP.variable_key ≠ adoptI.variable_key ∧
    adoptI.type_name = VariableType.Unknown ∧
    adopt_grand_children adoptCache adoptP adoptI =
      (Except.ok (),
        (adoptCache.filter (fun e => e.1 != adoptI.variable_key)).map
          (reassignParent adoptP.variable_key adoptI.variable_key)) :=
  ⟨by decide, by decide, by decide, by decide,
    (adopt_grand_children_spec adoptCache adoptP adoptI (by decide) (by decide)
      (by decide)).1 (Or.inl (by decide))⟩

/-- Witness for C5 on a concrete two-root cache. -/
theorem get_children_sorted_witness :
    CacheWF [((1 : Int), dupFirst), (2, dupSecond)] ∧
    (∃ l, get_children [((1 : Int), dupFirst), (2, dupSecond)] none = Except.ok l ∧
      l.Perm ((cacheValues [((1 : Int), dupFirst), (2, dupSecond)]).filter
        (fun v => v.parent_key == none)) ∧
      (∀ v, v ∈ l ↔
        v ∈ cacheValues [((1 : Int), dupFirst), (2, dupSecond)] ∧ v.parent_key = none) ∧
      l.Pairwise (fun a b => a.variable_key < b.variable_key)) :=
  ⟨by decide,
    get_children_sorted [((1 : Int), dupFirst), (2, dupSecond)] none (by decide)⟩

end ProbeRs
